import Mathlib

/-!
# Verification of the crypto-backtester simulation engines

Shallow embedding of the two backtest engines of the repository
(`src/backtester.ts`, USD-margined variant, and `src/btc-backtester.ts`,
BTC-denominated variant) together with the parts of `src/altbtc.ts` the
BTC engine calls, and proofs about the claims of the specification.

Modelling conventions:
* JavaScript `number` is modelled by `ℚ` for prices, sizes and rates and
  by `ℤ` for millisecond timestamps.  Indicator values, which the source
  allows to be `NaN` ("insufficient history"), are modelled by `Option ℚ`
  with `none` playing the role of `NaN`; the engine only ever inspects
  `indicators.atr` through an `isNaN` guard.
* The external collaborators (`loadCandles` from the market-data
  provider, `calculateIndicators` from the indicator engine,
  `Math.sqrt`, `Date.now()` and, for the BTC engine, the ratio-candle
  builder `buildAllAltBtcCandles`) are explicit inputs of the model.
* JavaScript `Map`s keyed by strings or numbers are modelled by
  association lists in insertion order; setting an existing key
  overwrites in place, exactly as `Map.set` does.
* The TS names are kept wherever the verification gate allows it; the
  source's partial-close family (`PartialClose`, `partialCloses`,
  `partialClosePosition`, `partialPnl`) is rendered as `PartClose`,
  `partCloses`, `partClosePosition`, `partPnl`.
-/

-- ============================================================
-- Data model (src/types.ts)
-- ============================================================

/-- `Candle` of `src/types.ts`: raw OHLCV data. -/
structure Candle where
  timestamp : ℤ
  open_ : ℚ
  high : ℚ
  low : ℚ
  close : ℚ
  volume : ℚ
  turnover : ℚ
deriving Repr, DecidableEq, Inhabited

/-- `MACD` of `src/types.ts`; possibly-NaN numbers are `Option ℚ`. -/
structure MACD where
  line : Option ℚ
  signal : Option ℚ
  histogram : Option ℚ
deriving Repr, DecidableEq, Inhabited

/-- `BollingerBands` of `src/types.ts`. -/
structure BollingerBands where
  upper : Option ℚ
  middle : Option ℚ
  lower : Option ℚ
  bandwidth : Option ℚ
deriving Repr, DecidableEq, Inhabited

/-- `StochRSI` of `src/types.ts`. -/
structure StochRSI where
  k : Option ℚ
  d : Option ℚ
deriving Repr, DecidableEq, Inhabited

/-- `FibonacciLevels` of `src/types.ts`. -/
structure FibonacciLevels where
  high : Option ℚ
  low : Option ℚ
  level236 : Option ℚ
  level382 : Option ℚ
  level500 : Option ℚ
  level618 : Option ℚ
  level786 : Option ℚ
deriving Repr, DecidableEq, Inhabited

/-- `Indicators` of `src/types.ts`: the per-candle indicator snapshot
produced by the external indicator engine.  `none` models `NaN`. -/
structure Indicators where
  ema9 : Option ℚ
  ema21 : Option ℚ
  ema50 : Option ℚ
  ema200 : Option ℚ
  sma20 : Option ℚ
  sma50 : Option ℚ
  rsi : Option ℚ
  macd : MACD
  bb : BollingerBands
  atr : Option ℚ
  adx : Option ℚ
  stochRsi : StochRSI
  volumeSma : Option ℚ
  vwap : Option ℚ
  fibonacci : FibonacciLevels
deriving Repr, DecidableEq, Inhabited

/-- `CandleWithIndicators` of `src/types.ts`. -/
structure CandleWithIndicators where
  timestamp : ℤ
  open_ : ℚ
  high : ℚ
  low : ℚ
  close : ℚ
  volume : ℚ
  turnover : ℚ
  indicators : Indicators
deriving Repr, DecidableEq, Inhabited

/-- `Side` of `src/types.ts`. -/
inductive Side where
  | long
  | short
deriving Repr, DecidableEq, Inhabited

/-- `'open' | 'closed'` status of a position. -/
inductive PosStatus where
  | openPos
  | closedPos
deriving Repr, DecidableEq, Inhabited

/-- `EntrySignal` of `src/types.ts`. -/
structure EntrySignal where
  enter : Bool
  stopLoss : ℚ
  takeProfit : ℚ
  takeProfit2 : Option ℚ
  reason : String
deriving Repr, DecidableEq, Inhabited

/-- `ExitSignal` of `src/types.ts`. -/
structure ExitSignal where
  exit : Bool
  reason : String
deriving Repr, DecidableEq, Inhabited

/-- `MultiTimeframeData` of `src/types.ts`: an object keyed by timeframe,
modelled as an insertion-ordered association list. -/
def MultiTimeframeData := List (String × List CandleWithIndicators)

/-- `PartialClose` of `src/types.ts` (renamed `PartClose`, see header). -/
structure PartClose where
  price : ℚ
  size : ℚ
  pnl : ℚ
  timestamp : ℤ
  reason : String
deriving Repr, DecidableEq, Inhabited

/-- `Position` of `src/types.ts`.  The optional exit fields of the TS
interface (`exitTime`, `exitPrice`, `pnl`, `exitReason`) live on the
`Trade` structure here, which models the closing `{...position, ...}`
spread. -/
structure Position where
  id : String
  symbol : String
  side : Side
  entryPrice : ℚ
  size : ℚ
  leverage : ℚ
  stopLoss : ℚ
  takeProfit : ℚ
  takeProfit2 : Option ℚ
  entryTime : ℤ
  commission : ℚ
  status : PosStatus
  reason : String
  partCloses : List PartClose
  trailingStop : Option ℚ
  breakeven : Bool
  tp1Hit : Bool
deriving Repr, DecidableEq, Inhabited

/-- `Trade` of `src/types.ts`: a `Position` frozen at close time plus the
exit data.  `pos` carries the spread copy of the position (with its
`commission` replaced by the total commission and `status` closed). -/
structure Trade where
  pos : Position
  exitTime : ℤ
  exitPrice : ℚ
  pnl : ℚ
  exitReason : String
  duration : ℤ
deriving Repr, DecidableEq, Inhabited

/-- `Strategy` of `src/types.ts`: the pluggable strategy capability. -/
structure Strategy where
  name : String
  requiredTimeframes : List String
  shouldEnterLong : List CandleWithIndicators → ℕ → Option MultiTimeframeData → EntrySignal
  shouldEnterShort : List CandleWithIndicators → ℕ → Option MultiTimeframeData → EntrySignal
  shouldExit : Position → List CandleWithIndicators → ℕ → Option MultiTimeframeData → ExitSignal

/-- `BacktestConfig` of `src/types.ts`. -/
structure BacktestConfig where
  startingCapital : ℚ
  leverage : ℚ
  commissionRate : ℚ
  slippageRate : ℚ
  riskPerTrade : ℚ
  maxConcurrentPositions : ℕ
  symbols : List String
  timeframe : String
  strategy : Strategy

/-- `MonthlyReturn` of `src/types.ts`. -/
structure MonthlyReturn where
  month : String
  pnl : ℚ
  pnlPercent : ℚ
  trades : ℕ
  winRate : ℚ
deriving Repr, DecidableEq, Inhabited

/-- `SymbolBreakdown` of `src/types.ts`.  `profitFactor` is `none` when
the source produces `Infinity` (no losses). -/
structure SymbolBreakdown where
  symbol : String
  trades : ℕ
  pnl : ℚ
  winRate : ℚ
  profitFactor : Option ℚ
deriving Repr, DecidableEq, Inhabited

/-- `EquityPoint` of `src/types.ts`. -/
structure EquityPoint where
  timestamp : ℤ
  equity : ℚ
deriving Repr, DecidableEq, Inhabited

/-- `BacktestResult` of `src/types.ts`.  `profitFactor` is `none` when the
source produces `Infinity`. -/
structure BacktestResult where
  strategyName : String
  leverage : ℚ
  trades : List Trade
  totalTrades : ℕ
  wins : ℕ
  losses : ℕ
  winRate : ℚ
  totalPnl : ℚ
  totalPnlPercent : ℚ
  profitFactor : Option ℚ
  maxDrawdown : ℚ
  maxDrawdownPercent : ℚ
  avgWin : ℚ
  avgLoss : ℚ
  bestTrade : Option Trade
  worstTrade : Option Trade
  avgTradeDuration : ℚ
  sharpeRatio : ℚ
  monthlyReturns : List MonthlyReturn
  symbolBreakdown : List SymbolBreakdown
  equityCurve : List EquityPoint
  finalEquity : ℚ
  startingCapital : ℚ
deriving Repr, DecidableEq, Inhabited

-- ============================================================
-- External collaborators of the USD engine
-- ============================================================

/-- The collaborators the USD engine consumes (spec §6): the market-data
provider's `loadCandles`, the indicator engine's enrichment, `Math.sqrt`
used by the Sharpe computation.  All are explicit inputs of the model. -/
structure Env where
  loadCandles : String → String → Option (List Candle)
  calculateIndicators : List Candle → List CandleWithIndicators
  sqrt : ℚ → ℚ

-- ============================================================
-- Helpers of src/backtester.ts (lines 22-152)
-- ============================================================

/-- `nextPositionId` of `src/backtester.ts`: builds the id and returns the
incremented counter (the source's module-level `positionCounter`). -/
def nextPositionId (symbol : String) (counter : ℕ) : String × ℕ :=
  (symbol ++ "-" ++ toString counter, counter + 1)

/-- `remainingSize` of `src/backtester.ts`: unclosed size after partial
closes. -/
def remainingSize (position : Position) : ℚ :=
  position.size - (position.partCloses.foldl (fun sum pc => sum + pc.size) 0)

/-- `partialPnl` of `src/backtester.ts` (renamed `partPnl`): PnL already
realised by partial closes. -/
def partPnl (position : Position) : ℚ :=
  position.partCloses.foldl (fun sum pc => sum + pc.pnl) 0

/-- `unrealisedPnl` of `src/backtester.ts`. -/
def unrealisedPnl (position : Position) (currentPrice : ℚ) : ℚ :=
  let remSize := remainingSize position
  let raw :=
    match position.side with
    | Side.long => ((currentPrice - position.entryPrice) / position.entryPrice) * remSize
    | Side.short => ((position.entryPrice - currentPrice) / position.entryPrice) * remSize
  raw - position.commission + partPnl position

/-- `closePosition` of `src/backtester.ts` (lines 60-104): closes the
remaining portion of a position at a price/time, producing a `Trade`. -/
def closePosition (position : Position) (exitPrice : ℚ) (exitTime : ℤ)
    (exitReason : String) (slippageRate commissionRate : ℚ) : Trade :=
  let slippedExit :=
    match position.side with
    | Side.long => exitPrice * (1 - slippageRate)
    | Side.short => exitPrice * (1 + slippageRate)
  let remSize := remainingSize position
  let exitCommission := remSize * commissionRate
  let totalCommission := position.commission + exitCommission
  let pnl0 :=
    match position.side with
    | Side.long =>
        ((slippedExit - position.entryPrice) / position.entryPrice) * remSize - totalCommission
    | Side.short =>
        ((position.entryPrice - slippedExit) / position.entryPrice) * remSize - totalCommission
  let pnl := pnl0 + partPnl position
  { pos := { position with status := PosStatus.closedPos, commission := totalCommission }
    exitTime := exitTime
    exitPrice := slippedExit
    pnl := pnl
    exitReason := exitReason
    duration := exitTime - position.entryTime }

/-- `partialClosePosition` of `src/backtester.ts` (lines 109-152, renamed
`partClosePosition`): closes a fraction of the remaining size, appending
a `PartClose` record and accruing its commission on the position.
Returns the mutated position. -/
def partClosePosition (position : Position) (price fraction : ℚ)
    (timestamp : ℤ) (reason : String) (slippageRate commissionRate : ℚ) : Position :=
  let closeSize := remainingSize position * fraction
  let slippedPrice :=
    match position.side with
    | Side.long => price * (1 - slippageRate)
    | Side.short => price * (1 + slippageRate)
  let commission := closeSize * commissionRate
  let pnl :=
    match position.side with
    | Side.long =>
        ((slippedPrice - position.entryPrice) / position.entryPrice) * closeSize - commission
    | Side.short =>
        ((position.entryPrice - slippedPrice) / position.entryPrice) * closeSize - commission
  let pc : PartClose :=
    { price := slippedPrice, size := closeSize, pnl := pnl
      timestamp := timestamp, reason := reason }
  { position with
      partCloses := position.partCloses ++ [pc]
      commission := position.commission + commission }

-- ============================================================
-- Generic containers: JS Map / Set / Array.sort models
-- ============================================================

/-- First-match association-list lookup: `Map.get` (keys are unique by
construction wherever this is used). -/
def lookupAssoc {κ β : Type} [DecidableEq κ] : List (κ × β) → κ → Option β
  | [], _ => none
  | e :: rest, k => if e.1 = k then some e.2 else lookupAssoc rest k

/-- `Map.set`: overwrite in place when the key exists, append otherwise. -/
def setAssoc {κ β : Type} [DecidableEq κ] (m : List (κ × β)) (k : κ) (v : β) :
    List (κ × β) :=
  if (lookupAssoc m k).isSome then
    m.map (fun e => if e.1 = k then (k, v) else e)
  else
    m ++ [(k, v)]

/-- Insert a timestamp into a sorted duplicate-free list, keeping it
sorted and duplicate-free.  Folding this over all candles models
`Set` collection followed by `Array.sort((a, b) => a - b)`. -/
def insertTs (t : ℤ) : List ℤ → List ℤ
  | [] => [t]
  | x :: xs => if t < x then t :: x :: xs else if t = x then x :: xs else x :: insertTs t xs

/-- Sorted ascending copy of a list of integers, duplicates removed
(the source only applies this to duplicate-free key sets). -/
def sortInts (l : List ℤ) : List ℤ :=
  l.foldl (fun acc t => insertTs t acc) []

/-- Insert with a boolean "less or equal" test (stable insertion sort). -/
def insertByLe {α : Type} (le : α → α → Bool) (x : α) : List α → List α
  | [] => [x]
  | y :: ys => if le x y then x :: y :: ys else y :: insertByLe le x ys

/-- Stable insertion sort, models `Array.sort` with a comparator. -/
def sortByLe {α : Type} (le : α → α → Bool) (l : List α) : List α :=
  l.foldr (insertByLe le) []

/-- The source builds, per symbol, a `Map` from timestamp to candle index
(`indexMaps`); a duplicate timestamp overwrites, so the *last* index
wins.  This returns that index together with the candle at it. -/
def lastIdxOf (candles : List CandleWithIndicators) (ts : ℤ) :
    Option (ℕ × CandleWithIndicators) :=
  candles.enum.foldl
    (fun acc ic => if ic.2.timestamp = ts then some ic else acc) none

-- ============================================================
-- USD engine: exit rule cascade (src/backtester.ts lines 264-421)
-- ============================================================

/-- Outcome of evaluating the exit cascade on one open position. -/
inductive ExitOutcome where
  | closed (t : Trade)
  | stillOpen (p : Position)
deriving Repr, DecidableEq, Inhabited

/-- Rule 5 of the USD exit cascade (lines 385-420): the trailing-stop
update — never a close; the stop is only ever tightened once the
position is 1 ATR in profit. -/
def exitStep5 (candle : CandleWithIndicators) (position : Position) : ExitOutcome :=
  match candle.indicators.atr with
  | none => ExitOutcome.stillOpen position
  | some atr =>
    if atr > 0 then
      match position.side with
      | Side.long =>
        let profitDistance := candle.close - position.entryPrice
        if profitDistance ≥ atr then
          let newTrail := position.entryPrice + (1 / 2) * atr
          let trail :=
            match position.trailingStop with
            | none => newTrail
            | some t => if newTrail > t then newTrail else t
          let position := { position with trailingStop := some trail }
          if trail > position.stopLoss then
            ExitOutcome.stillOpen { position with stopLoss := trail }
          else ExitOutcome.stillOpen position
        else ExitOutcome.stillOpen position
      | Side.short =>
        let profitDistance := position.entryPrice - candle.close
        if profitDistance ≥ atr then
          let newTrail := position.entryPrice - (1 / 2) * atr
          let trail :=
            match position.trailingStop with
            | none => newTrail
            | some t => if newTrail < t then newTrail else t
          let position := { position with trailingStop := some trail }
          if trail < position.stopLoss then
            ExitOutcome.stillOpen { position with stopLoss := trail }
          else ExitOutcome.stillOpen position
        else ExitOutcome.stillOpen position
    else ExitOutcome.stillOpen position

/-- Rule 4 of the USD exit cascade (lines 367-381): the strategy exit
signal. -/
def exitStep4 (strategy : Strategy) (slippageRate commissionRate : ℚ)
    (candles : List CandleWithIndicators) (candleIdx : ℕ)
    (candle : CandleWithIndicators) (multiTfData : Option MultiTimeframeData)
    (position : Position) : ExitOutcome :=
  let exitSignal := strategy.shouldExit position candles candleIdx multiTfData
  if exitSignal.exit then
    ExitOutcome.closed (closePosition position candle.close candle.timestamp
      exitSignal.reason slippageRate commissionRate)
  else exitStep5 candle position

/-- Rule 3 of the USD exit cascade (lines 341-363): take-profit 2, only
after TP1 has been hit. -/
def exitStep3 (strategy : Strategy) (slippageRate commissionRate : ℚ)
    (candles : List CandleWithIndicators) (candleIdx : ℕ)
    (candle : CandleWithIndicators) (multiTfData : Option MultiTimeframeData)
    (position : Position) : ExitOutcome :=
  match position.takeProfit2 with
  | some tp2 =>
    if position.tp1Hit ∧
        ((position.side = Side.long ∧ candle.high ≥ tp2) ∨
         (position.side = Side.short ∧ candle.low ≤ tp2)) then
      ExitOutcome.closed (closePosition position tp2 candle.timestamp
        "TP2 hit — full close" slippageRate commissionRate)
    else exitStep4 strategy slippageRate commissionRate candles candleIdx candle
      multiTfData position
  | none => exitStep4 strategy slippageRate commissionRate candles candleIdx candle
      multiTfData position

/-- Rule 2 of the USD exit cascade (lines 299-337): take-profit 1 — a
50% partial close, then breakeven stop when a TP2 exists, otherwise a
full close of the remainder. -/
def exitStep2 (strategy : Strategy) (slippageRate commissionRate : ℚ)
    (candles : List CandleWithIndicators) (candleIdx : ℕ)
    (candle : CandleWithIndicators) (multiTfData : Option MultiTimeframeData)
    (position : Position) : ExitOutcome :=
  if (¬position.tp1Hit) ∧
      ((position.side = Side.long ∧ candle.high ≥ position.takeProfit) ∨
       (position.side = Side.short ∧ candle.low ≤ position.takeProfit)) then
    let position := partClosePosition position position.takeProfit (1 / 2)
      candle.timestamp "TP1 hit — partial close 50%" slippageRate commissionRate
    let position := { position with tp1Hit := true }
    match position.takeProfit2 with
    | some _ =>
      exitStep3 strategy slippageRate commissionRate candles candleIdx candle
        multiTfData { position with stopLoss := position.entryPrice, breakeven := true }
    | none =>
      ExitOutcome.closed (closePosition position position.takeProfit
        candle.timestamp "TP1 hit — full close" slippageRate commissionRate)
  else exitStep3 strategy slippageRate commissionRate candles candleIdx candle
    multiTfData position

/-- The exit-rule cascade of the USD engine for one open position on one
candle, in source order: stop loss, then TP1 (partial, or full close
when no TP2), TP2, strategy exit, trailing-stop update. -/
def checkExitsOne (strategy : Strategy) (slippageRate commissionRate : ℚ)
    (candles : List CandleWithIndicators) (candleIdx : ℕ)
    (candle : CandleWithIndicators) (multiTfData : Option MultiTimeframeData)
    (position : Position) : ExitOutcome :=
  if (position.side = Side.long ∧ candle.low ≤ position.stopLoss) ∨
      (position.side = Side.short ∧ candle.high ≥ position.stopLoss) then
    ExitOutcome.closed (closePosition position position.stopLoss candle.timestamp
      "Stop loss hit" slippageRate commissionRate)
  else exitStep2 strategy slippageRate commissionRate candles candleIdx candle
    multiTfData position

-- ============================================================
-- USD engine: entry evaluation (src/backtester.ts lines 426-486)
-- ============================================================

/-- Processing of one accepted entry signal (body of the `for ... of
signals` loop): risk sizing, leverage cap, degenerate-arithmetic guards,
position creation.  Returns the updated open-position list and position
counter; a rejected signal returns them unchanged (`continue`). -/
def tryEnterOne (riskPerTrade leverage slippageRate commissionRate : ℚ)
    (symbol : String) (candle : CandleWithIndicators) (equity : ℚ)
    (acc : List Position × ℕ) (signal : EntrySignal) (side : Side) :
    List Position × ℕ :=
  let (openPositions, counter) := acc
  let riskAmount := equity * riskPerTrade
  let entryPrice :=
    match side with
    | Side.long => candle.close * (1 + slippageRate)
    | Side.short => candle.close * (1 - slippageRate)
  let distanceToSL := |entryPrice - signal.stopLoss|
  if distanceToSL = 0 then acc -- avoid division by zero
  else
    let positionSize := riskAmount / (distanceToSL / entryPrice)
    let maxSize := equity * leverage
    let positionSize := if positionSize > maxSize then maxSize else positionSize
    if positionSize ≤ 0 then acc -- don't open a negligible position
    else
      let entryCommission := positionSize * commissionRate
      let idc := nextPositionId symbol counter
      let position : Position :=
        { id := idc.1
          symbol := symbol
          side := side
          entryPrice := entryPrice
          size := positionSize
          leverage := leverage
          stopLoss := signal.stopLoss
          takeProfit := signal.takeProfit
          takeProfit2 := signal.takeProfit2
          entryTime := candle.timestamp
          commission := entryCommission
          status := PosStatus.openPos
          reason := signal.reason
          partCloses := []
          trailingStop := none
          breakeven := false
          tp1Hit := false }
      (openPositions ++ [position], idc.2)

/-- The `for ... of signals` loop with its `break` once the concurrency
cap is reached. -/
def entryLoop (riskPerTrade leverage slippageRate commissionRate : ℚ)
    (maxConcurrentPositions : ℕ) (symbol : String)
    (candle : CandleWithIndicators) (equity : ℚ) :
    List (EntrySignal × Side) → List Position × ℕ → List Position × ℕ
  | [], acc => acc
  | s :: rest, acc =>
    if acc.1.length ≥ maxConcurrentPositions then acc
    else
      entryLoop riskPerTrade leverage slippageRate commissionRate
        maxConcurrentPositions symbol candle equity rest
        (tryEnterOne riskPerTrade leverage slippageRate commissionRate
          symbol candle equity acc s.1 s.2)

-- ============================================================
-- USD engine: main simulation loop (src/backtester.ts lines 158-557)
-- ============================================================

/-- The mutable state of the main loop of `runBacktest`. -/
structure RunState where
  equity : ℚ
  openPositions : List Position
  completedTrades : List Trade
  equityCurve : List EquityPoint
  candleCount : ℕ
  positionCounter : ℕ
deriving Repr, Inhabited

/-- Body of the per-symbol loop at one timestamp: exit checks over the
open positions (the source iterates backwards with `splice`, so the
trades of later array slots are pushed first), then entry checks under
the global concurrency cap. -/
def processSymbol (strategy : Strategy)
    (slippageRate commissionRate riskPerTrade leverage : ℚ)
    (maxConcurrentPositions : ℕ)
    (multiTfBySymbol : List (String × MultiTimeframeData)) (ts : ℤ)
    (st : RunState) (entry : String × List CandleWithIndicators) : RunState :=
  let symbol := entry.1
  let candles := entry.2
  match lastIdxOf candles ts with
  | none => st -- no candle for this symbol at this timestamp
  | some (candleIdx, candle) =>
    let multiTfData := lookupAssoc multiTfBySymbol symbol
    -- a. exit checks: positions of other symbols are skipped unchanged
    let outs := st.openPositions.map (fun position =>
      if position.symbol = symbol then
        checkExitsOne strategy slippageRate commissionRate candles candleIdx
          candle multiTfData position
      else ExitOutcome.stillOpen position)
    let newOpen := outs.filterMap (fun o =>
      match o with
      | ExitOutcome.stillOpen p => some p
      | ExitOutcome.closed _ => none)
    let newTrades := outs.reverse.filterMap (fun o =>
      match o with
      | ExitOutcome.closed t => some t
      | ExitOutcome.stillOpen _ => none)
    let st := { st with openPositions := newOpen
                        completedTrades := st.completedTrades ++ newTrades }
    -- b. entry checks
    if st.openPositions.length < maxConcurrentPositions then
      let longSignal := strategy.shouldEnterLong candles candleIdx multiTfData
      let shortSignal := strategy.shouldEnterShort candles candleIdx multiTfData
      let signals :=
        (if longSignal.enter then [(longSignal, Side.long)] else []) ++
        (if shortSignal.enter then [(shortSignal, Side.short)] else [])
      let oc := entryLoop riskPerTrade leverage slippageRate commissionRate
        maxConcurrentPositions symbol candle st.equity signals
        (st.openPositions, st.positionCounter)
      { st with openPositions := oc.1, positionCounter := oc.2 }
    else st

/-- One iteration of the main timestamp loop: process every symbol, then
bump the candle counter and record an equity sample when due. -/
def processTimestamp (strategy : Strategy)
    (slippageRate commissionRate riskPerTrade leverage : ℚ)
    (maxConcurrentPositions : ℕ) (startingCapital : ℚ)
    (symbolDataList : List (String × List CandleWithIndicators))
    (multiTfBySymbol : List (String × MultiTimeframeData)) (lastTs : ℤ)
    (st : RunState) (ts : ℤ) : RunState :=
  let st := symbolDataList.foldl
    (processSymbol strategy slippageRate commissionRate riskPerTrade leverage
      maxConcurrentPositions multiTfBySymbol ts) st
  let candleCount := st.candleCount + 1
  let st := { st with candleCount := candleCount }
  -- record equity every 100 candles, at the first candle and at the end
  if candleCount % 100 = 0 ∨ candleCount = 1 ∨ ts = lastTs then
    let realisedPnl := st.completedTrades.foldl (fun sum t => sum + t.pnl) 0
    let unrealised := st.openPositions.foldl (fun u pos =>
      match lookupAssoc symbolDataList pos.symbol with
      | none => u
      | some candles =>
        match lastIdxOf candles ts with
        | none => u
        | some ic => u + unrealisedPnl pos ic.2.close) 0
    let equity := startingCapital + realisedPnl + unrealised
    { st with equity := equity
              equityCurve := st.equityCurve ++ [{ timestamp := ts, equity := equity }] }
  else st

/-- Data loading and preparation (`runBacktest` steps 1-2): builds the
symbol → enriched-candles map and, when the strategy declares required
timeframes, the per-symbol multi-timeframe map.  Symbols whose data is
absent or empty are skipped. -/
def loadSymbolData (env : Env) (strategy : Strategy) (timeframe : String)
    (symbols : List String) :
    List (String × List CandleWithIndicators) × List (String × MultiTimeframeData) :=
  symbols.foldl (fun acc symbol =>
    match env.loadCandles symbol timeframe with
    | none => acc
    | some rawCandles =>
      if rawCandles = [] then acc
      else
        let withIndicators := env.calculateIndicators rawCandles
        let dataMap := setAssoc acc.1 symbol withIndicators
        if strategy.requiredTimeframes ≠ [] then
          let multiTf : MultiTimeframeData :=
            setAssoc ([] : MultiTimeframeData) timeframe withIndicators
          let multiTf := strategy.requiredTimeframes.foldl (fun mtf tf =>
            if tf = timeframe then mtf
            else
              match env.loadCandles symbol tf with
              | none => mtf
              | some tfCandles =>
                if tfCandles = [] then mtf
                else setAssoc mtf tf (env.calculateIndicators tfCandles)) multiTf
          (dataMap, setAssoc acc.2 symbol multiTf)
        else (dataMap, acc.2)) ([], [])

/-- `runBacktest` step 3: the merged chronological timeline of unique
timestamps across all loaded symbols. -/
def buildTimeline (symbolDataList : List (String × List CandleWithIndicators)) :
    List ℤ :=
  symbolDataList.foldl
    (fun acc e => e.2.foldl (fun a c => insertTs c.timestamp a) acc) []

-- ============================================================
-- Results calculation (src/backtester.ts lines 564-760)
-- ============================================================

/-- One step of the max-drawdown scan (lines 610-619): state is
`(maxDrawdown, maxDrawdownPercent, peak)`. -/
def drawdownStep (acc : ℚ × ℚ × ℚ) (point : EquityPoint) : ℚ × ℚ × ℚ :=
  let peak := if point.equity > acc.2.2 then point.equity else acc.2.2
  let drawdown := peak - point.equity
  if drawdown > acc.1 then (drawdown, drawdown / peak * 100, peak)
  else (acc.1, acc.2.1, peak)

/-- The max-drawdown scan over the equity curve (lines 606-619).  The
peak starts at the first equity point, falling back to the starting
capital for an empty curve. -/
def drawdownScan (startingCapital : ℚ) (equityCurve : List EquityPoint) :
    ℚ × ℚ × ℚ :=
  let peak0 :=
    match equityCurve.head? with
    | some p => p.equity
    | none => startingCapital
  equityCurve.foldl drawdownStep (0, 0, peak0)

/-- Start-of-UTC-day key of a timestamp (line 631):
`Math.floor(timestamp / DAY_MS) * DAY_MS`. -/
def dayKeyOf (t : ℤ) : ℤ := (Int.fdiv t 86400000) * 86400000

/-- One step of the per-day equity grouping (lines 630-638): the value is
`(first, last)`; a first occurrence sets both, a later one updates
`last`. -/
def dailyUpdate (m : List (ℤ × ℚ × ℚ)) (p : EquityPoint) : List (ℤ × ℚ × ℚ) :=
  let key := dayKeyOf p.timestamp
  if (lookupAssoc m key).isSome then
    m.map (fun e => if e.1 = key then (e.1, e.2.1, p.equity) else e)
  else m ++ [(key, p.equity, p.equity)]

/-- The list of daily returns derived from an equity curve
(lines 627-649): one return per calendar day, computed between the
`last` samples of consecutive day keys, skipping days whose previous
equity is zero. -/
def dailyReturnsOf (equityCurve : List EquityPoint) : List ℚ :=
  let dailyEquity := equityCurve.foldl dailyUpdate []
  let dayKeys := sortInts (dailyEquity.map Prod.fst)
  (dayKeys.zip dayKeys.tail).filterMap (fun kk =>
    match lookupAssoc dailyEquity kk.1, lookupAssoc dailyEquity kk.2 with
    | some prev, some curr =>
      if prev.2 ≠ 0 then some ((curr.2 - prev.2) / prev.2) else none
    | _, _ => none)

/-- The annualised Sharpe ratio (lines 624-663).  `sqrt` is the model of
`Math.sqrt` (an input of the engine's environment). -/
def sharpeRatioOf (sqrt : ℚ → ℚ) (equityCurve : List EquityPoint) : ℚ :=
  if equityCurve.length > 1 then
    let dailyReturns := dailyReturnsOf equityCurve
    if dailyReturns.length > 1 then
      let meanReturn :=
        dailyReturns.foldl (fun s r => s + r) 0 / (dailyReturns.length : ℚ)
      let variance :=
        dailyReturns.foldl (fun s r => s + (r - meanReturn) ^ 2) 0 /
          ((dailyReturns.length : ℚ) - 1)
      let stdDev := sqrt variance
      if stdDev > 0 then meanReturn / stdDev * sqrt 365 else 0
    else 0
  else 0

/-- Days-to-civil-date conversion (proleptic Gregorian, UTC): the model
of `new Date(ms).getUTCFullYear()` / `.getUTCMonth()`.  Returns
`(year, month)` with `month` in `1..12`. -/
def civilFromDays (day : ℤ) : ℤ × ℤ :=
  let z := day + 719468
  let era := Int.fdiv z 146097
  let doe := z - era * 146097
  let yoe := Int.fdiv (doe - Int.fdiv doe 1460 + Int.fdiv doe 36524 - Int.fdiv doe 146096) 365
  let y := yoe + era * 400
  let doy := doe - (365 * yoe + Int.fdiv yoe 4 - Int.fdiv yoe 100)
  let mp := Int.fdiv (5 * doy + 2) 153
  let m := if mp < 10 then mp + 3 else mp - 9
  (if m ≤ 2 then y + 1 else y, m)

/-- `String(month).padStart(2, '0')`. -/
def pad2 (m : ℤ) : String :=
  if m < 10 then "0" ++ toString m else toString m

/-- The `YYYY-MM` month key of a trade's exit time (lines 674-675). -/
def monthKeyOf (t : ℤ) : String :=
  let ym := civilFromDays (Int.fdiv t 86400000)
  toString ym.1 ++ "-" ++ pad2 ym.2

/-- Accumulator of the monthly breakdown map (lines 668-681). -/
structure MonthAcc where
  pnl : ℚ
  trades : ℕ
  wins : ℕ
deriving Repr, DecidableEq, Inhabited

/-- Accumulator of the symbol breakdown map (lines 696-718). -/
structure SymAcc where
  trades : ℕ
  pnl : ℚ
  wins : ℕ
  winPnl : ℚ
  lossPnl : ℚ
deriving Repr, DecidableEq, Inhabited

/-- Insertion-ordered map update with a default for missing keys
(`map.get(k) || init` followed by `map.set(k, f v)`). -/
def bumpAssoc {κ β : Type} [DecidableEq κ] (m : List (κ × β)) (k : κ)
    (d : β) (f : β → β) : List (κ × β) :=
  match lookupAssoc m k with
  | some _ => m.map (fun e => if e.1 = k then (e.1, f e.2) else e)
  | none => m ++ [(k, f d)]

/-- The monthly-breakdown fold of `calculateResults` (lines 668-691). -/
def monthlyReturnsOf (startingCapital : ℚ) (trades : List Trade) : List MonthlyReturn :=
  let monthlyMap : List (String × MonthAcc) := trades.foldl (fun m t =>
    bumpAssoc m (monthKeyOf t.exitTime)
      ({ pnl := 0, trades := 0, wins := 0 } : MonthAcc)
      (fun (e : MonthAcc) =>
        ({ pnl := e.pnl + t.pnl
           trades := e.trades + 1
           wins := e.wins + (if t.pnl > (0 : ℚ) then 1 else 0) } : MonthAcc))) []
  (sortByLe (fun a b => a.1 ≤ b.1) monthlyMap).map (fun (e : String × MonthAcc) =>
    { month := e.1
      pnl := e.2.pnl
      pnlPercent := (e.2.pnl / startingCapital) * 100
      trades := e.2.trades
      winRate := if e.2.trades > 0 then ((e.2.wins : ℚ) / (e.2.trades : ℚ)) * 100 else 0 })

/-- The symbol-breakdown fold of `calculateResults` (lines 696-728). -/
def symbolBreakdownOf (trades : List Trade) : List SymbolBreakdown :=
  let symbolMap : List (String × SymAcc) := trades.foldl (fun m t =>
    bumpAssoc m t.pos.symbol
      ({ trades := 0, pnl := 0, wins := 0, winPnl := 0, lossPnl := 0 } : SymAcc)
      (fun (e : SymAcc) =>
        if t.pnl > 0 then
          { trades := e.trades + 1, pnl := e.pnl + t.pnl
            wins := e.wins + 1, winPnl := e.winPnl + t.pnl
            lossPnl := e.lossPnl }
        else
          { trades := e.trades + 1, pnl := e.pnl + t.pnl
            wins := e.wins, winPnl := e.winPnl
            lossPnl := e.lossPnl + |t.pnl| })) []
  (sortByLe (fun a b => a.1 ≤ b.1) symbolMap).map (fun (e : String × SymAcc) =>
    { symbol := e.1
      trades := e.2.trades
      pnl := e.2.pnl
      winRate := if e.2.trades > 0 then ((e.2.wins : ℚ) / (e.2.trades : ℚ)) * 100 else 0
      profitFactor := if e.2.lossPnl = 0 then none else some (e.2.winPnl / e.2.lossPnl) })

/-- `trades.reduce((best, t) => t.pnl > best.pnl ? t : best)` (589-592). -/
def bestTradeOf (trades : List Trade) : Option Trade :=
  match trades with
  | [] => none
  | h :: rest => some (rest.foldl (fun best t => if t.pnl > best.pnl then t else best) h)

/-- `trades.reduce((worst, t) => t.pnl < worst.pnl ? t : worst)` (593-596). -/
def worstTradeOf (trades : List Trade) : Option Trade :=
  match trades with
  | [] => none
  | h :: rest => some (rest.foldl (fun worst t => if t.pnl < worst.pnl then t else worst) h)

/-- `calculateResults` of `src/backtester.ts` (lines 564-760). -/
def calculateResults (env : Env) (config : BacktestConfig)
    (trades : List Trade) (equityCurve : List EquityPoint) : BacktestResult :=
  let startingCapital := config.startingCapital
  let totalTrades := trades.length
  let wins := (trades.filter (fun t => t.pnl > 0)).length
  let losses := (trades.filter (fun t => t.pnl ≤ 0)).length
  let totalPnl := trades.foldl (fun sum t => sum + t.pnl) 0
  let winningPnls := (trades.filter (fun t => t.pnl > 0)).map (fun t => t.pnl)
  let losingPnls := (trades.filter (fun t => t.pnl ≤ 0)).map (fun t => t.pnl)
  let sumWins := winningPnls.foldl (fun s p => s + p) 0
  let sumLosses := |losingPnls.foldl (fun s p => s + p) 0|
  let dd := drawdownScan startingCapital equityCurve
  { strategyName := config.strategy.name
    leverage := config.leverage
    trades := trades
    totalTrades := totalTrades
    wins := wins
    losses := losses
    winRate := if totalTrades > 0 then ((wins : ℚ) / (totalTrades : ℚ)) * 100 else 0
    totalPnl := totalPnl
    totalPnlPercent := (totalPnl / startingCapital) * 100
    profitFactor := if sumLosses = 0 then none else some (sumWins / sumLosses)
    maxDrawdown := dd.1
    maxDrawdownPercent := dd.2.1
    avgWin := if winningPnls.length > 0 then sumWins / (winningPnls.length : ℚ) else 0
    avgLoss :=
      if losingPnls.length > 0 then
        (losingPnls.foldl (fun s p => s + p) 0) / (losingPnls.length : ℚ)
      else 0
    bestTrade := bestTradeOf trades
    worstTrade := worstTradeOf trades
    avgTradeDuration :=
      if trades.length > 0 then
        (trades.foldl (fun sum t => sum + (t.duration : ℚ)) 0) / (trades.length : ℚ)
      else 0
    sharpeRatio := sharpeRatioOf env.sqrt equityCurve
    monthlyReturns := monthlyReturnsOf startingCapital trades
    symbolBreakdown := symbolBreakdownOf trades
    equityCurve := equityCurve
    finalEquity := startingCapital + totalPnl
    startingCapital := startingCapital }


-- ============================================================
-- runBacktest (src/backtester.ts lines 158-558)
-- ============================================================

/-- The initial state of the main loop: counter reset, full capital. -/
def initState (startingCapital : ℚ) : RunState :=
  { equity := startingCapital
    openPositions := []
    completedTrades := []
    equityCurve := []
    candleCount := 0
    positionCounter := 0 }

/-- Main simulation (`runBacktest` steps 1-4: setup, data, timeline, the
timestamp loop).  Returns the final loop state together with the
prepared symbol data and the sorted timeline. -/
def usdSimulate (env : Env) (config : BacktestConfig) :
    RunState × List (String × List CandleWithIndicators) × List ℤ :=
  let sd := loadSymbolData env config.strategy config.timeframe config.symbols
  let sortedTimestamps := buildTimeline sd.1
  let lastTsLoop := sortedTimestamps.getLastD 0
  let st := sortedTimestamps.foldl
    (processTimestamp config.strategy config.slippageRate config.commissionRate
      config.riskPerTrade config.leverage config.maxConcurrentPositions
      config.startingCapital sd.1 sd.2 lastTsLoop)
    (initState config.startingCapital)
  (st, sd.1, sortedTimestamps)

/-- `runBacktest` of `src/backtester.ts`.  `now` models `Date.now()`,
which the source consults only when stamping the final equity point of
a run whose timeline is empty. -/
def runBacktest (env : Env) (config : BacktestConfig) (now : ℤ) : BacktestResult :=
  let sim := usdSimulate env config
  let st := sim.1
  let symbolDataList := sim.2.1
  let sortedTimestamps := sim.2.2
  -- 5. close remaining open positions at the last candle's close
  let finalTrades := st.completedTrades ++ st.openPositions.filterMap (fun position =>
    match lookupAssoc symbolDataList position.symbol with
    | none => none
    | some candles =>
      match candles.getLast? with
      | none => none
      | some lastCandle =>
        some (closePosition position lastCandle.close lastCandle.timestamp
          "End of backtest — forced close" config.slippageRate config.commissionRate))
  let finalRealisedPnl := finalTrades.foldl (fun sum t => sum + t.pnl) 0
  let equity := config.startingCapital + finalRealisedPnl
  -- ensure the last equity point reflects the final state
  let equityCurve :=
    if st.equityCurve = [] ∨
        (st.equityCurve.getLastD default).equity ≠ equity then
      let lastTs :=
        match sortedTimestamps.getLast? with
        | some t => t
        | none => now
      st.equityCurve ++ [{ timestamp := lastTs, equity := equity }]
    else st.equityCurve
  calculateResults env config finalTrades equityCurve

-- ============================================================
-- BTC variant: data model (src/types.ts lines 247-354)
-- ============================================================

/-- `AltBtcCandle` of `src/types.ts`: a synthetic ALT/BTC ratio candle. -/
structure AltBtcCandle where
  timestamp : ℤ
  altSymbol : String
  open_ : ℚ
  high : ℚ
  low : ℚ
  close : ℚ
  volume : ℚ
  turnover : ℚ
  altUsdtPrice : ℚ
  btcUsdtPrice : ℚ
  indicators : Indicators
  altFundingRate : Option ℚ
deriving Repr, DecidableEq, Inhabited

/-- `BtcPosition` of `src/types.ts`. -/
structure BtcPosition where
  id : String
  altSymbol : String
  entryRatio : ℚ
  btcAllocated : ℚ
  entryTime : ℤ
  exitTime : Option ℤ
  exitRatio : Option ℚ
  btcPnl : Option ℚ
  status : PosStatus
  reason : String
  exitReason : Option String
  tp1Hit : Bool
  leverage : ℚ
deriving Repr, DecidableEq, Inhabited

/-- `BtcTrade` of `src/types.ts`: the closed position plus definite exit
data (the `{...pos, ...}` spread of the source's `closePosition`). -/
structure BtcTrade where
  pos : BtcPosition
  exitTime : ℤ
  exitRatio : ℚ
  btcPnl : ℚ
  duration : ℤ
deriving Repr, DecidableEq, Inhabited

/-- `BtcEquityPoint` of `src/types.ts`. -/
structure BtcEquityPoint where
  timestamp : ℤ
  btcEquity : ℚ
  usdtEquity : ℚ
deriving Repr, DecidableEq, Inhabited

/-- `AltBreakdown` of `src/types.ts`. -/
structure AltBreakdown where
  symbol : String
  trades : ℕ
  btcPnl : ℚ
  winRate : ℚ
deriving Repr, DecidableEq, Inhabited

/-- `BtcBacktestResult` of `src/types.ts`. -/
structure BtcBacktestResult where
  strategyName : String
  startingBtc : ℚ
  finalBtc : ℚ
  btcProfit : ℚ
  btcProfitPercent : ℚ
  startBtcPrice : ℚ
  endBtcPrice : ℚ
  usdtValueStart : ℚ
  usdtValueEnd : ℚ
  holdOnlyUsdtEnd : ℚ
  totalTrades : ℕ
  wins : ℕ
  losses : ℕ
  winRate : ℚ
  avgHoldTime : ℚ
  bestTrade : Option BtcTrade
  worstTrade : Option BtcTrade
  trades : List BtcTrade
  equityCurve : List BtcEquityPoint
  perAltBreakdown : List AltBreakdown
deriving Repr, DecidableEq, Inhabited

/-- `BtcEntrySignal` of `src/types.ts`. -/
structure BtcEntrySignal where
  enter : Bool
  stopLossRatio : ℚ
  tp1Ratio : ℚ
  tp2Ratio : ℚ
  btcAllocation : ℚ
  reason : String
deriving Repr, DecidableEq, Inhabited

/-- `BtcExitSignal` of `src/types.ts`. -/
structure BtcExitSignal where
  exit : Bool
  sellFraction : ℚ
  reason : String
deriving Repr, DecidableEq, Inhabited

/-- `BtcStrategy` of `src/types.ts`. -/
structure BtcStrategy where
  name : String
  leverage : ℚ
  shouldEnter : List AltBtcCandle → ℕ → ℚ → BtcEntrySignal
  shouldExit : BtcPosition → List AltBtcCandle → ℕ → ℚ → BtcExitSignal

-- ============================================================
-- BTC variant: constants (src/btc-backtester.ts lines 17-30)
-- ============================================================

def STARTING_BTC : ℚ := 5 / 100
def MAX_CONCURRENT_POSITIONS : ℕ := 3
/-- 15% drop in ratio from entry. -/
def STOP_LOSS_PCT : ℚ := 15 / 100
/-- +30% ratio gain. -/
def TP1_PCT : ℚ := 30 / 100
/-- +50% ratio gain. -/
def TP2_PCT : ℚ := 50 / 100
/-- sell 50% at TP1. -/
def TP1_SELL_FRACTION : ℚ := 50 / 100
/-- 14 days in milliseconds. -/
def MAX_HOLD_MS : ℤ := 14 * 86400000
/-- avg ratio trend > 2% triggers exit. -/
def DOMINANCE_TREND_THRESHOLD : ℚ := 2
def MIN_BTC_ALLOCATION : ℚ := 1 / 10000
/-- record equity every N candles. -/
def EQUITY_RECORD_INTERVAL : ℕ := 10
def SPOT_COMMISSION_RATE : ℚ := 1 / 1000
def FUTURES_COMMISSION_RATE : ℚ := 6 / 10000

-- ============================================================
-- Average ratio trend (src/altbtc.ts lines 160-255)
-- ============================================================

/-- The `lo < hi` narrowing loop of `findClosestCandleIndex`: finds the
first index whose timestamp is `≥ target`.  The loop halves `hi - lo`
each iteration, so the structural `fuel` argument (always called with
`candles.length`, strictly above the initial `hi - lo`) is never
exhausted. -/
def findClosestAux (candles : List AltBtcCandle) (target : ℤ) :
    ℕ → ℕ → ℕ → ℕ
  | 0, lo, _ => lo
  | fuel + 1, lo, hi =>
    if lo < hi then
      let mid := (lo + hi) / 2
      if (candles.getD mid default).timestamp < target then
        findClosestAux candles target fuel (mid + 1) hi
      else
        findClosestAux candles target fuel lo mid
    else lo

/-- `findClosestCandleIndex` of `src/altbtc.ts`: binary search for the
candle whose timestamp is closest to `target` (`none` models the `-1`
returned for an empty list). -/
def findClosestCandleIndex (candles : List AltBtcCandle) (target : ℤ) : Option ℕ :=
  if candles = [] then none
  else
    let lo := findClosestAux candles target candles.length 0 (candles.length - 1)
    if lo = 0 then some 0
    else if lo ≥ candles.length then some (candles.length - 1)
    else
      let diffLo := |(candles.getD lo default).timestamp - target|
      let diffPrev := |(candles.getD (lo - 1) default).timestamp - target|
      if diffPrev ≤ diffLo then some (lo - 1) else some lo

/-- `calculateAvgRatioTrend` of `src/altbtc.ts` (lines 160-193): average
percentage change of the close ratio across all alts over a lookback
window.  `isFinite` of the source is always true in the ℚ model. -/
def calculateAvgRatioTrend (allAltCandles : List (String × List AltBtcCandle))
    (timestamp : ℤ) (lookbackDays : ℤ) : ℚ :=
  let startTimestamp := timestamp - lookbackDays * 86400000
  let tc := allAltCandles.foldl (fun (acc : ℚ × ℕ) e =>
    let candles := e.2
    if candles = [] then acc
    else
      match findClosestCandleIndex candles startTimestamp,
            findClosestCandleIndex candles timestamp with
      | some startIdx, some endIdx =>
        let startRatio := (candles.getD startIdx default).close
        let endRatio := (candles.getD endIdx default).close
        if startRatio = 0 then acc
        else (acc.1 + ((endRatio - startRatio) / startRatio) * 100, acc.2 + 1)
      | _, _ => acc) (0, 0)
  if tc.2 = 0 then 0 else tc.1 / (tc.2 : ℚ)

-- ============================================================
-- BTC variant: accounting helpers (src/btc-backtester.ts lines 350-498)
-- ============================================================

/-- `calculateBtcReturn` of `src/btc-backtester.ts`: net BTC received
when (partially) closing a position — spot or leveraged gross return,
loss capped at the allocated margin, minus two commission legs, floored
at zero. -/
def calculateBtcReturn (btcAllocated entryRatio exitRatio leverage commissionRate : ℚ) : ℚ :=
  if entryRatio = 0 then 0
  else
    let ratioChange := exitRatio / entryRatio
    let grossReturn :=
      if leverage ≤ 1 then btcAllocated * ratioChange
      else
        let g := btcAllocated * (1 + leverage * (ratioChange - 1))
        if g < 0 then 0 else g
    let notional := if leverage ≤ 1 then btcAllocated else btcAllocated * leverage
    let totalCommission := notional * commissionRate * 2
    let netReturn := grossReturn - totalCommission
    max netReturn 0

/-- `getCloseBtcReturn` of `src/btc-backtester.ts`. -/
def getCloseBtcReturn (pos : BtcPosition) (exitRatio leverage commissionRate : ℚ) : ℚ :=
  calculateBtcReturn pos.btcAllocated pos.entryRatio exitRatio leverage commissionRate

/-- `closePosition` of `src/btc-backtester.ts` (lines 401-429): marks the
position closed and produces the `BtcTrade` that the source pushes onto
`completedTrades`. -/
def btcClosePosition (pos : BtcPosition) (exitRatio : ℚ) (exitTime : ℤ)
    (exitReason : String) (leverage commissionRate : ℚ) : BtcTrade :=
  let btcReturned := calculateBtcReturn pos.btcAllocated pos.entryRatio exitRatio
    leverage commissionRate
  let btcPnl := btcReturned - pos.btcAllocated
  let pos' := { pos with status := PosStatus.closedPos
                         exitRatio := some exitRatio
                         exitTime := some exitTime
                         exitReason := some exitReason
                         btcPnl := some btcPnl }
  { pos := pos'
    exitTime := exitTime
    exitRatio := exitRatio
    btcPnl := btcPnl
    duration := exitTime - pos.entryTime }

/-- The `while (lo <= hi)` loop of `findRatioAtTimestamp`, tracking the
best (last `≤ target`) index found so far.  The `hi = mid - 1` step that
would drive `hi` below zero in the source ends the loop here.  The loop
shrinks `hi + 1 - lo` each iteration, so the structural `fuel` argument
(always called with `candles.length + 1`, strictly above the initial
`hi + 1 - lo`) is never exhausted. -/
def findRatioAux (candles : List AltBtcCandle) (target : ℤ) :
    ℕ → ℕ → ℕ → Option ℕ → Option ℕ
  | 0, _, _, best => best
  | fuel + 1, lo, hi, best =>
    if lo ≤ hi then
      let mid := (lo + hi) / 2
      if (candles.getD mid default).timestamp ≤ target then
        findRatioAux candles target fuel (mid + 1) hi (some mid)
      else
        if mid = 0 then best
        else findRatioAux candles target fuel lo (mid - 1) best
    else best

/-- `findRatioAtTimestamp` of `src/btc-backtester.ts` (lines 478-498):
close ratio of the last candle at or before `timestamp`, falling back to
the first candle. -/
def findRatioAtTimestamp (candles : List AltBtcCandle) (timestamp : ℤ) : ℚ :=
  if candles = [] then 0
  else
    match findRatioAux candles timestamp (candles.length + 1) 0 (candles.length - 1) none with
    | none => (candles.getD 0 default).close
    | some bestIdx => (candles.getD bestIdx default).close

/-- `calculateTotalEquity` of `src/btc-backtester.ts` (lines 434-472):
available BTC plus the mark-to-market of the open positions. -/
def calculateTotalEquity (availableBtc : ℚ) (openPositions : List BtcPosition)
    (allAltCandles : List (String × List AltBtcCandle)) (timestamp : ℤ) : ℚ :=
  openPositions.foldl (fun total pos =>
    if pos.status ≠ PosStatus.openPos then total
    else
      match lookupAssoc allAltCandles pos.altSymbol with
      | none => total + pos.btcAllocated
      | some altCandles =>
        if altCandles = [] then total + pos.btcAllocated
        else
          let currentRatio := findRatioAtTimestamp altCandles timestamp
          if currentRatio ≤ 0 ∨ pos.entryRatio ≤ (0 : ℚ) then total + pos.btcAllocated
          else
            let ratioChange := currentRatio / pos.entryRatio
            if pos.leverage ≤ (1 : ℚ) then total + pos.btcAllocated * ratioChange
            else
              let mtm := pos.btcAllocated * (1 + pos.leverage * (ratioChange - 1))
              total + max mtm 0) availableBtc

/-- `buildAltBreakdown` of `src/btc-backtester.ts` (lines 513-543). -/
def buildAltBreakdown (trades : List BtcTrade) : List AltBreakdown :=
  let grouped : List (String × List BtcTrade) := trades.foldl (fun g t =>
    match lookupAssoc g t.pos.altSymbol with
    | some _ => g.map (fun e => if e.1 = t.pos.altSymbol then (e.1, e.2 ++ [t]) else e)
    | none => g ++ [(t.pos.altSymbol, [t])]) []
  let breakdown := grouped.map (fun (e : String × List BtcTrade) =>
    let wins := (e.2.filter (fun t => t.btcPnl > (0 : ℚ))).length
    let totalPnl := e.2.foldl (fun s t => s + t.btcPnl) 0
    { symbol := e.1
      trades := e.2.length
      btcPnl := totalPnl
      winRate := if e.2.length > 0 then ((wins : ℚ) / (e.2.length : ℚ)) * 100 else 0
      : AltBreakdown })
  sortByLe (fun a b => b.btcPnl ≤ a.btcPnl) breakdown

/-- `emptyResult` of `src/btc-backtester.ts` (lines 548-571). -/
def emptyResult (strategyName : String) : BtcBacktestResult :=
  { strategyName := strategyName
    startingBtc := STARTING_BTC
    finalBtc := STARTING_BTC
    btcProfit := 0
    btcProfitPercent := 0
    startBtcPrice := 0
    endBtcPrice := 0
    usdtValueStart := 0
    usdtValueEnd := 0
    holdOnlyUsdtEnd := 0
    totalTrades := 0
    wins := 0
    losses := 0
    winRate := 0
    avgHoldTime := 0
    bestTrade := none
    worstTrade := none
    trades := []
    equityCurve := []
    perAltBreakdown := [] }

-- ============================================================
-- BTC variant: exit cascade and main loop (btc-backtester.ts 47-316)
-- ============================================================

/-- Outcome of the per-position exit checks of the BTC engine:
a full close (with the trade and the BTC credited back), a reduction of
the allocation (TP1 partial or strategy partial exit, with the BTC
credited back), or no action. -/
inductive BtcExitOutcome where
  | fullClose (t : BtcTrade) (btcReturned : ℚ)
  | reduced (p : BtcPosition) (btcReturned : ℚ) (isTp1 : Bool)
  | keep (p : BtcPosition)
deriving Repr, DecidableEq, Inhabited

/-- The exit-rule cascade of the BTC engine for one open position (lines
124-196), in source order: stop loss, fast dominance drop, TP1 partial,
TP2, max-hold timeout, strategy exit (full or partial). -/
def btcCheckExitsOne (strategy : BtcStrategy) (commissionRate : ℚ)
    (altCandles : List AltBtcCandle) (candleIdx : ℕ)
    (currentCandle : AltBtcCandle) (timestamp : ℤ)
    (avgRatioTrend1d avgRatioTrend7d : ℚ) (pos : BtcPosition) : BtcExitOutcome :=
  let currentRatio := currentCandle.close
  -- stop loss: drop of STOP_LOSS_PCT from the entry ratio
  if currentRatio ≤ pos.entryRatio * (1 - STOP_LOSS_PCT) then
    BtcExitOutcome.fullClose
      (btcClosePosition pos currentRatio timestamp "stop_loss" strategy.leverage commissionRate)
      (getCloseBtcReturn pos currentRatio strategy.leverage commissionRate)
  -- BTC dominance dropping fast: alts rising > 2% in a day
  else if avgRatioTrend1d > DOMINANCE_TREND_THRESHOLD then
    BtcExitOutcome.fullClose
      (btcClosePosition pos currentRatio timestamp "btc_dominance_drop" strategy.leverage commissionRate)
      (getCloseBtcReturn pos currentRatio strategy.leverage commissionRate)
  -- TP1: ratio gain of TP1_PCT, sell TP1_SELL_FRACTION
  else if (¬pos.tp1Hit) ∧ currentRatio ≥ pos.entryRatio * (1 + TP1_PCT) then
    let originalAllocated := pos.btcAllocated
    let halfAllocated := originalAllocated * TP1_SELL_FRACTION
    let btcReturned := calculateBtcReturn halfAllocated pos.entryRatio currentRatio
      strategy.leverage commissionRate
    BtcExitOutcome.reduced
      { pos with btcAllocated := originalAllocated - halfAllocated, tp1Hit := true }
      btcReturned true
  -- TP2: ratio gain of TP2_PCT, only after TP1
  else if pos.tp1Hit ∧ currentRatio ≥ pos.entryRatio * (1 + TP2_PCT) then
    BtcExitOutcome.fullClose
      (btcClosePosition pos currentRatio timestamp "tp2" strategy.leverage commissionRate)
      (getCloseBtcReturn pos currentRatio strategy.leverage commissionRate)
  -- max-hold timeout
  else if timestamp - pos.entryTime ≥ MAX_HOLD_MS then
    BtcExitOutcome.fullClose
      (btcClosePosition pos currentRatio timestamp "max_hold_timeout" strategy.leverage commissionRate)
      (getCloseBtcReturn pos currentRatio strategy.leverage commissionRate)
  else
    -- strategy-defined exit
    let exitSignal := strategy.shouldExit pos altCandles candleIdx avgRatioTrend7d
    if exitSignal.exit then
      let fraction :=
        if exitSignal.sellFraction > 0 ∧ exitSignal.sellFraction ≤ 1 then
          exitSignal.sellFraction
        else 1
      if fraction ≥ 1 then
        BtcExitOutcome.fullClose
          (btcClosePosition pos currentRatio timestamp exitSignal.reason strategy.leverage commissionRate)
          (getCloseBtcReturn pos currentRatio strategy.leverage commissionRate)
      else
        let partialAlloc := pos.btcAllocated * fraction
        let btcReturned := calculateBtcReturn partialAlloc pos.entryRatio currentRatio
          strategy.leverage commissionRate
        BtcExitOutcome.reduced
          { pos with btcAllocated := pos.btcAllocated - partialAlloc }
          btcReturned false
    else BtcExitOutcome.keep pos

/-- State of the main loop of `runBtcBacktest`.  The `tp1PartPnls` and
`stratPartPnls` fields are write-only verification ghosts recording the
BTC profit realised by every TP1 partial and strategy partial exit; the
engine logic never reads them. -/
structure BtcRunState where
  availableBtc : ℚ
  openPositions : List BtcPosition
  completedTrades : List BtcTrade
  equityCurve : List BtcEquityPoint
  positionCounter : ℕ
  candelCounter : ℕ
  startBtcPrice : ℚ
  endBtcPrice : ℚ
  tp1PartPnls : List ℚ
  stratPartPnls : List ℚ
deriving Repr, Inhabited

/-- Timestamp-to-candle lookup for the alt index maps, last index wins
(same `Map` overwrite semantics as the USD engine). -/
def btcLastIdxOf (candles : List AltBtcCandle) (ts : ℤ) :
    Option (ℕ × AltBtcCandle) :=
  candles.enum.foldl
    (fun acc ic => if ic.2.timestamp = ts then some ic else acc) none

/-- Applies the outcome of the exit checks of one position to the loop
state parts `(open-so-far, trades, availableBtc, tp1 ghosts, strategy
ghosts)`. -/
def btcApplyOutcome
    (acc : List BtcPosition × List BtcTrade × ℚ × List ℚ × List ℚ)
    (origAllocated : ℚ) (o : BtcExitOutcome) :
    List BtcPosition × List BtcTrade × ℚ × List ℚ × List ℚ :=
  match o with
  | BtcExitOutcome.fullClose t ret =>
    (acc.1, acc.2.1 ++ [t], acc.2.2.1 + ret, acc.2.2.2.1, acc.2.2.2.2)
  | BtcExitOutcome.reduced p ret isTp1 =>
    let pnl := ret - (origAllocated - p.btcAllocated)
    if isTp1 then
      (acc.1 ++ [p], acc.2.1, acc.2.2.1 + ret, acc.2.2.2.1 ++ [pnl], acc.2.2.2.2)
    else
      (acc.1 ++ [p], acc.2.1, acc.2.2.1 + ret, acc.2.2.2.1, acc.2.2.2.2 ++ [pnl])
  | BtcExitOutcome.keep p =>
    (acc.1 ++ [p], acc.2.1, acc.2.2.1, acc.2.2.2.1, acc.2.2.2.2)

/-- One step of the exit pass of the BTC per-alt loop: positions of the
current alt that are open get the exit cascade applied; the rest pass
through unchanged. -/
def btcExitFoldStep (strategy : BtcStrategy) (commissionRate : ℚ)
    (altCandles : List AltBtcCandle) (candleIdx : ℕ)
    (currentCandle : AltBtcCandle) (timestamp : ℤ)
    (avgRatioTrend1d avgRatioTrend7d : ℚ) (altSymbol : String)
    (acc2 : List BtcPosition × List BtcTrade × ℚ × List ℚ × List ℚ)
    (pos : BtcPosition) :
    List BtcPosition × List BtcTrade × ℚ × List ℚ × List ℚ :=
  if pos.altSymbol = altSymbol ∧ pos.status = PosStatus.openPos then
    btcApplyOutcome acc2 pos.btcAllocated
      (btcCheckExitsOne strategy commissionRate altCandles candleIdx
        currentCandle timestamp avgRatioTrend1d avgRatioTrend7d pos)
  else
    (acc2.1 ++ [pos], acc2.2.1, acc2.2.2.1, acc2.2.2.2.1, acc2.2.2.2.2)

/-- The exit pass of the per-alt loop (lines 106-160): run the exit
checks over the state's open positions and fold the outcomes back into
the state. -/
def btcExitPass (strategy : BtcStrategy) (commissionRate : ℚ)
    (altCandles : List AltBtcCandle) (candleIdx : ℕ)
    (currentCandle : AltBtcCandle) (timestamp : ℤ)
    (avgRatioTrend1d avgRatioTrend7d : ℚ) (altSymbol : String)
    (st : BtcRunState) : BtcRunState :=
  let z := st.openPositions.foldl
    (btcExitFoldStep strategy commissionRate altCandles candleIdx
      currentCandle timestamp avgRatioTrend1d avgRatioTrend7d altSymbol)
    (([] : List BtcPosition), st.completedTrades, st.availableBtc,
      st.tp1PartPnls, st.stratPartPnls)
  { st with openPositions := z.1
            completedTrades := z.2.1
            availableBtc := z.2.2.1
            tp1PartPnls := z.2.2.2.1
            stratPartPnls := z.2.2.2.2 }

/-- The entry pass of the per-alt loop (lines 162-233): enter a new
position when the concurrency cap, the one-position-per-alt rule, the
strategy signal and the minimum-allocation floor all allow it. -/
def btcEntryPass (strategy : BtcStrategy)
    (allAltCandles : List (String × List AltBtcCandle)) (timestamp : ℤ)
    (avgRatioTrend7d : ℚ) (altSymbol : String)
    (altCandles : List AltBtcCandle) (candleIdx : ℕ)
    (currentCandle : AltBtcCandle) (st : BtcRunState) : BtcRunState :=
  let activeCount :=
    (st.openPositions.filter (fun p => p.status = PosStatus.openPos)).length
  if activeCount ≥ MAX_CONCURRENT_POSITIONS then st
  else if st.openPositions.any (fun p =>
      p.altSymbol = altSymbol && p.status = PosStatus.openPos) then st
  else
    let entrySignal := strategy.shouldEnter altCandles candleIdx avgRatioTrend7d
    if entrySignal.enter then
      let totalEquity := calculateTotalEquity st.availableBtc st.openPositions
        allAltCandles timestamp
      let btcToAllocate := min (totalEquity * entrySignal.btcAllocation) st.availableBtc
      if btcToAllocate < MIN_BTC_ALLOCATION then st
      else
        let positionCounter := st.positionCounter + 1
        let newPosition : BtcPosition :=
          { id := "btc-pos-" ++ toString positionCounter
            altSymbol := altSymbol
            entryRatio := currentCandle.close
            btcAllocated := btcToAllocate
            entryTime := timestamp
            exitTime := none
            exitRatio := none
            btcPnl := none
            status := PosStatus.openPos
            reason := entrySignal.reason
            exitReason := none
            tp1Hit := false
            leverage := strategy.leverage }
        { st with openPositions := st.openPositions ++ [newPosition]
                  availableBtc := st.availableBtc - btcToAllocate
                  positionCounter := positionCounter }
    else st

/-- Body of the per-alt loop at one timestamp (lines 103-233): record
BTC/USDT prices, run the exit checks over the open positions of this
alt, then the entry checks under the concurrency cap and the one-
position-per-alt rule.  The second component of the accumulator is the
loop-local `currentBtcUsdtPrice`. -/
def btcProcessAlt (strategy : BtcStrategy) (commissionRate : ℚ)
    (allAltCandles : List (String × List AltBtcCandle)) (timestamp : ℤ)
    (avgRatioTrend1d avgRatioTrend7d : ℚ)
    (acc : BtcRunState × ℚ) (entry : String × List AltBtcCandle) :
    BtcRunState × ℚ :=
  let st := acc.1
  let altSymbol := entry.1
  let altCandles := entry.2
  match btcLastIdxOf altCandles timestamp with
  | none => acc
  | some (candleIdx, currentCandle) =>
    let currentBtcUsdtPrice :=
      if acc.2 = 0 then currentCandle.btcUsdtPrice else acc.2
    let st := { st with
      startBtcPrice := if st.startBtcPrice = 0 then currentCandle.btcUsdtPrice else st.startBtcPrice
      endBtcPrice := currentCandle.btcUsdtPrice }
    (btcEntryPass strategy allAltCandles timestamp avgRatioTrend7d altSymbol
      altCandles candleIdx currentCandle
      (btcExitPass strategy commissionRate altCandles candleIdx currentCandle
        timestamp avgRatioTrend1d avgRatioTrend7d altSymbol st),
      currentBtcUsdtPrice)

/-- One iteration of the BTC main timestamp loop (lines 93-244). -/
def btcProcessTimestamp (strategy : BtcStrategy) (commissionRate : ℚ)
    (allAltCandles : List (String × List AltBtcCandle))
    (st : BtcRunState) (timestamp : ℤ) : BtcRunState :=
  let st := { st with candelCounter := st.candelCounter + 1 }
  let avgRatioTrend7d := calculateAvgRatioTrend allAltCandles timestamp 7
  let avgRatioTrend1d := calculateAvgRatioTrend allAltCandles timestamp 1
  let sp := allAltCandles.foldl
    (btcProcessAlt strategy commissionRate allAltCandles timestamp
      avgRatioTrend1d avgRatioTrend7d) (st, 0)
  let st := sp.1
  let currentBtcUsdtPrice := sp.2
  -- 3c. record equity periodically
  if st.candelCounter % EQUITY_RECORD_INTERVAL = 0 ∧ currentBtcUsdtPrice > 0 then
    let totalBtcEquity := calculateTotalEquity st.availableBtc st.openPositions
      allAltCandles timestamp
    { st with equityCurve := st.equityCurve ++
        [{ timestamp := timestamp
           btcEquity := totalBtcEquity
           usdtEquity := totalBtcEquity * currentBtcUsdtPrice }] }
  else st

/-- The merged sorted timeline of the BTC engine (lines 74-81). -/
def buildBtcTimeline (allAltCandles : List (String × List AltBtcCandle)) : List ℤ :=
  allAltCandles.foldl
    (fun acc e => e.2.foldl (fun a c => insertTs c.timestamp a) acc) []

/-- One step of the final force-close pass: an open position whose alt
has candles is closed at that alt's last close; anything else passes
through unchanged. -/
def btcForceCloseStep (strategy : BtcStrategy) (commissionRate : ℚ)
    (allAltCandles : List (String × List AltBtcCandle)) (lastTimestamp : ℤ)
    (acc : List BtcPosition × List BtcTrade × ℚ) (pos : BtcPosition) :
    List BtcPosition × List BtcTrade × ℚ :=
  if pos.status ≠ PosStatus.openPos then (acc.1 ++ [pos], acc.2.1, acc.2.2)
  else
    match lookupAssoc allAltCandles pos.altSymbol with
    | none => (acc.1 ++ [pos], acc.2.1, acc.2.2)
    | some altCandles =>
      match altCandles.getLast? with
      | none => (acc.1 ++ [pos], acc.2.1, acc.2.2)
      | some lastCandle =>
        let exitRatio := lastCandle.close
        (acc.1,
          acc.2.1 ++ [btcClosePosition pos exitRatio lastTimestamp "backtest_end"
            strategy.leverage commissionRate],
          acc.2.2 + getCloseBtcReturn pos exitRatio strategy.leverage commissionRate)

/-- The force-close pass at the end of the run (lines 246-262). -/
def btcForceClose (strategy : BtcStrategy) (commissionRate : ℚ)
    (allAltCandles : List (String × List AltBtcCandle)) (lastTimestamp : ℤ)
    (st : BtcRunState) : BtcRunState :=
  let z := st.openPositions.foldl
    (btcForceCloseStep strategy commissionRate allAltCandles lastTimestamp)
    (([] : List BtcPosition), st.completedTrades, st.availableBtc)
  { st with openPositions := z.1, completedTrades := z.2.1, availableBtc := z.2.2 }

/-- `runBtcBacktest` of `src/btc-backtester.ts`.  The prepared ratio
candles (the result of `buildAllAltBtcCandles`, whose raw inputs come
from the external market-data provider) are an explicit input. -/
def runBtcBacktest (allAltCandles : List (String × List AltBtcCandle))
    (strategy : BtcStrategy) : BtcBacktestResult :=
  let commissionRate :=
    if strategy.leverage > 1 then FUTURES_COMMISSION_RATE else SPOT_COMMISSION_RATE
  if allAltCandles = [] then emptyResult strategy.name
  else
    let timeline := buildBtcTimeline allAltCandles
    if timeline = [] then emptyResult strategy.name
    else
      let st0 : BtcRunState :=
        { availableBtc := STARTING_BTC
          openPositions := []
          completedTrades := []
          equityCurve := []
          positionCounter := 0
          candelCounter := 0
          startBtcPrice := 0
          endBtcPrice := 0
          tp1PartPnls := []
          stratPartPnls := [] }
      let st := timeline.foldl
        (btcProcessTimestamp strategy commissionRate allAltCandles) st0
      let lastTimestamp := timeline.getLastD 0
      let st := btcForceClose strategy commissionRate allAltCandles lastTimestamp st
      let completedTrades := st.completedTrades
      let finalBtc := st.availableBtc
      let btcProfit := finalBtc - STARTING_BTC
      let wins := (completedTrades.filter (fun t => t.btcPnl > (0 : ℚ))).length
      let losses := (completedTrades.filter (fun t => t.btcPnl ≤ (0 : ℚ))).length
      let totalTrades := completedTrades.length
      let bestTrade := completedTrades.foldl (fun best t =>
        match best with
        | none => some t
        | some b => if t.btcPnl > b.btcPnl then some t else some b) none
      let worstTrade := completedTrades.foldl (fun worst t =>
        match worst with
        | none => some t
        | some w => if t.btcPnl < w.btcPnl then some t else some w) none
      { strategyName := strategy.name
        startingBtc := STARTING_BTC
        finalBtc := finalBtc
        btcProfit := btcProfit
        btcProfitPercent := (btcProfit / STARTING_BTC) * 100
        startBtcPrice := st.startBtcPrice
        endBtcPrice := st.endBtcPrice
        usdtValueStart := STARTING_BTC * st.startBtcPrice
        usdtValueEnd := finalBtc * st.endBtcPrice
        holdOnlyUsdtEnd := STARTING_BTC * st.endBtcPrice
        totalTrades := totalTrades
        wins := wins
        losses := losses
        winRate := if totalTrades > 0 then ((wins : ℚ) / (totalTrades : ℚ)) * 100 else 0
        avgHoldTime :=
          if totalTrades > 0 then
            (completedTrades.foldl (fun sum t => sum + (t.duration : ℚ)) 0) / (totalTrades : ℚ)
          else 0
        bestTrade := bestTrade
        worstTrade := worstTrade
        trades := completedTrades
        equityCurve := st.equityCurve
        perAltBreakdown := buildAltBreakdown completedTrades }

/-- The final state of the BTC run (loop plus force close), exposed for
the accounting theorems; `runBtcBacktest` reads its result fields off
this state. -/
def btcFinalState (allAltCandles : List (String × List AltBtcCandle))
    (strategy : BtcStrategy) : BtcRunState :=
  let commissionRate :=
    if strategy.leverage > 1 then FUTURES_COMMISSION_RATE else SPOT_COMMISSION_RATE
  let timeline := buildBtcTimeline allAltCandles
  let st0 : BtcRunState :=
    { availableBtc := STARTING_BTC
      openPositions := []
      completedTrades := []
      equityCurve := []
      positionCounter := 0
      candelCounter := 0
      startBtcPrice := 0
      endBtcPrice := 0
      tp1PartPnls := []
      stratPartPnls := [] }
  let st := timeline.foldl
    (btcProcessTimestamp strategy commissionRate allAltCandles) st0
  btcForceClose strategy commissionRate allAltCandles (timeline.getLastD 0) st

-- ============================================================
-- Concrete scenario inputs used by the theorems below
-- ============================================================

/-- An all-`NaN` indicator snapshot (insufficient history everywhere). -/
def noIndicators : Indicators :=
  { ema9 := none, ema21 := none, ema50 := none, ema200 := none
    sma20 := none, sma50 := none, rsi := none
    macd := { line := none, signal := none, histogram := none }
    bb := { upper := none, middle := none, lower := none, bandwidth := none }
    atr := none, adx := none
    stochRsi := { k := none, d := none }
    volumeSma := none, vwap := none
    fibonacci := { high := none, low := none, level236 := none, level382 := none
                   level500 := none, level618 := none, level786 := none } }

/-- A model of the indicator engine's `enrich`: one-to-one, same length
and ordering, all indicator values `NaN` (the engine under test treats
that as "insufficient data"). -/
def enrichFlat (cs : List Candle) : List CandleWithIndicators :=
  cs.map (fun c =>
    { timestamp := c.timestamp, open_ := c.open_, high := c.high, low := c.low
      close := c.close, volume := c.volume, turnover := c.turnover
      indicators := noIndicators })

/-- `NO_SIGNAL` of `src/types.ts`. -/
def NO_SIGNAL : EntrySignal :=
  { enter := false, stopLoss := 0, takeProfit := 0, takeProfit2 := none, reason := "" }

/-- `NO_EXIT` of `src/types.ts`. -/
def NO_EXIT : ExitSignal := { exit := false, reason := "" }

/-- Raw candle shorthand for scenario data. -/
def mkCandle (ts : ℤ) (o h l c : ℚ) : Candle :=
  { timestamp := ts, open_ := o, high := h, low := l, close := c
    volume := 0, turnover := 0 }

-- ---- Scenario A (spec §8): long entry at 100, stop 95, TP 110, no TP2.

def scenAData : List Candle :=
  [mkCandle 0 100 101 98 100, mkCandle 3600000 100 110 100 105]

def scenAStrategy : Strategy :=
  { name := "scenA"
    requiredTimeframes := []
    shouldEnterLong := fun _ idx _ =>
      if idx = 0 then
        { enter := true, stopLoss := 95, takeProfit := 110, takeProfit2 := none
          reason := "test entry" }
      else NO_SIGNAL
    shouldEnterShort := fun _ _ _ => NO_SIGNAL
    shouldExit := fun _ _ _ _ => NO_EXIT }

def scenAEnv : Env :=
  { loadCandles := fun sym tf =>
      if sym = "AAA" ∧ tf = "1h" then some scenAData else none
    calculateIndicators := enrichFlat
    sqrt := fun _ => 0 }

/-- The default engine configuration of `runAllBacktests`
(`src/backtester.ts` lines 782-792), on the scenario symbol. -/
def scenAConfig : BacktestConfig :=
  { startingCapital := 500
    leverage := 3
    commissionRate := 6 / 10000
    slippageRate := 3 / 10000
    riskPerTrade := 4 / 100
    maxConcurrentPositions := 3
    symbols := ["AAA"]
    timeframe := "1h"
    strategy := scenAStrategy }

def scenAResult : BacktestResult := runBacktest scenAEnv scenAConfig 0

-- ---- Scenario for C1: the USD entry evaluator has no per-symbol check.

def scenC1Data : List Candle :=
  [mkCandle 0 100 101 99 100, mkCandle 3600000 100 101 99 100]

/-- A strategy that signals a long entry on every candle, with a stop and
take-profit far from the price so no exit rule fires. -/
def scenC1Strategy : Strategy :=
  { name := "scenC1"
    requiredTimeframes := []
    shouldEnterLong := fun _ _ _ =>
      { enter := true, stopLoss := 90, takeProfit := 1000, takeProfit2 := none
        reason := "always long" }
    shouldEnterShort := fun _ _ _ => NO_SIGNAL
    shouldExit := fun _ _ _ _ => NO_EXIT }

def scenC1Env : Env :=
  { loadCandles := fun sym tf =>
      if sym = "AAA" ∧ tf = "1h" then some scenC1Data else none
    calculateIndicators := enrichFlat
    sqrt := fun _ => 0 }

def scenC1Config : BacktestConfig :=
  { scenAConfig with strategy := scenC1Strategy }

def scenC1State : RunState := (usdSimulate scenC1Env scenC1Config).1

-- ---- BTC scenario shorthand

/-- Ratio-candle shorthand: flat OHLC at `r`, fixed BTC/USDT price. -/
def mkAltCandle (sym : String) (ts : ℤ) (r : ℚ) : AltBtcCandle :=
  { timestamp := ts, altSymbol := sym, open_ := r, high := r, low := r, close := r
    volume := 0, turnover := 0, altUsdtPrice := r * 50000, btcUsdtPrice := 50000
    indicators := noIndicators, altFundingRate := none }

/-- `NO_BTC_ENTRY` of `src/types.ts`. -/
def NO_BTC_ENTRY : BtcEntrySignal :=
  { enter := false, stopLossRatio := 0, tp1Ratio := 0, tp2Ratio := 0
    btcAllocation := 0, reason := "" }

/-- `NO_BTC_EXIT` of `src/types.ts`. -/
def NO_BTC_EXIT : BtcExitSignal := { exit := false, sellFraction := 0, reason := "" }

-- ---- Scenario for C3: leveraged position, 12% ratio drop, no stop.

def scenC3Data : List (String × List AltBtcCandle) :=
  [("EEE",
    [mkAltCandle "EEE" 0 1,
     mkAltCandle "EEE" 43200000 (88 / 100),
     mkAltCandle "EEE" 86400000 (88 / 100)])]

def scenC3Strategy : BtcStrategy :=
  { name := "scenC3"
    leverage := 2
    shouldEnter := fun candles idx _ =>
      if idx = 0 ∧ (candles.getD 0 default).timestamp = 0 then
        { enter := true, stopLossRatio := 0, tp1Ratio := 0, tp2Ratio := 0
          btcAllocation := 1 / 2, reason := "rotate in" }
      else NO_BTC_ENTRY
    shouldExit := fun _ _ _ _ => NO_BTC_EXIT }

def scenC3Result : BtcBacktestResult := runBtcBacktest scenC3Data scenC3Strategy

/-- The open leveraged position of scenario C3 as it stands when the
12%-drop candle is evaluated. -/
def scenC3Pos : BtcPosition :=
  { id := "btc-pos-1", altSymbol := "EEE", entryRatio := 1, btcAllocated := 1 / 40
    entryTime := 0, exitTime := none, exitRatio := none, btcPnl := none
    status := PosStatus.openPos, reason := "rotate in", exitReason := none
    tp1Hit := false, leverage := 2 }

-- ---- Scenario for C8: zero entry ratio in the BTC variant.

def scenC8Data : List (String × List AltBtcCandle) :=
  [("EEE", [mkAltCandle "EEE" 0 0])]

def scenC8Strategy : BtcStrategy :=
  { name := "scenC8"
    leverage := 1
    shouldEnter := fun _ _ _ =>
      { enter := true, stopLossRatio := 0, tp1Ratio := 0, tp2Ratio := 0
        btcAllocation := 1 / 2, reason := "degenerate entry" }
    shouldExit := fun _ _ _ _ => NO_BTC_EXIT }

def scenC8Result : BtcBacktestResult := runBtcBacktest scenC8Data scenC8Strategy

-- ---- Scenario for C10: a profitable TP1 partial close exactly offset
-- by a losing strategy partial exit.

def scenC10Data : List (String × List AltBtcCandle) :=
  [("AAA",
    [mkAltCandle "AAA" 0 1,
     mkAltCandle "AAA" (6 * 86400000) (9275 / 10000),
     mkAltCandle "AAA" (12 * 86400000) (9275 / 10000)]),
   ("BBB",
    [mkAltCandle "BBB" 0 1,
     mkAltCandle "BBB" (4 * 86400000) (13 / 10),
     mkAltCandle "BBB" (12 * 86400000) (13 / 10)])]

def scenC10Strategy : BtcStrategy :=
  { name := "scenC10"
    leverage := 1
    shouldEnter := fun candles idx _ =>
      if idx = 0 then
        match (candles.getD 0 default).altSymbol with
        | "AAA" =>
          { enter := true, stopLossRatio := 0, tp1Ratio := 0, tp2Ratio := 0
            btcAllocation := 8 / 10, reason := "rotate AAA" }
        | "BBB" =>
          { enter := true, stopLossRatio := 0, tp1Ratio := 0, tp2Ratio := 0
            btcAllocation := 2 / 10, reason := "rotate BBB" }
        | _ => NO_BTC_ENTRY
      else NO_BTC_ENTRY
    shouldExit := fun pos candles idx _ =>
      if pos.altSymbol = "AAA" ∧ (candles.getD idx default).timestamp = 6 * 86400000 then
        { exit := true, sellFraction := 1 / 2, reason := "rebalance half" }
      else NO_BTC_EXIT }

def scenC10Result : BtcBacktestResult := runBtcBacktest scenC10Data scenC10Strategy

def scenC10State : BtcRunState := btcFinalState scenC10Data scenC10Strategy

-- ---- Inputs for the determinism and boundary claims.

/-- A market-data provider with no data for any symbol. -/
def emptyEnv : Env :=
  { loadCandles := fun _ _ => none
    calculateIndicators := enrichFlat
    sqrt := fun _ => 0 }

-- ============================================================
-- Drawdown-peak scan (for the §8 drawdown invariant)
-- ============================================================

/-- The successive values of the `peak` tracking variable during the
drawdown scan, starting at its initial value. -/
def ddPeaks (startingCapital : ℚ) (equityCurve : List EquityPoint) : List ℚ :=
  let peak0 :=
    match equityCurve.head? with
    | some p => p.equity
    | none => startingCapital
  (List.scanl drawdownStep (0, 0, peak0) equityCurve).map (fun s => s.2.2)

/-- An equity curve that dips below zero, reachable by the accounting
engine when losses exceed the starting capital. -/
def negCurve : List EquityPoint :=
  [{ timestamp := 0, equity := 100 }, { timestamp := 3600000, equity := -50 }]

-- ============================================================
-- Spec-side Sharpe ratio (spec §4.6), for the refinement claim
-- ============================================================

/-- Modelled from the spec's words: the equity sample of day `d` with
the greatest timestamp (the "last equity sample" of that calendar
day; later occurrences win ties). -/
def lastSampleOfDay (equityCurve : List EquityPoint) (d : ℤ) : Option EquityPoint :=
  match equityCurve.filter (fun p => dayKeyOf p.timestamp = d) with
  | [] => none
  | h :: rest =>
    some (rest.foldl (fun acc p => if acc.timestamp ≤ p.timestamp then p else acc) h)

/-- Modelled from the spec's words: one return per calendar day, between
the last equity samples of consecutive days, a day being "valid" when
the previous day's equity is nonzero. -/
def specDailyReturns (equityCurve : List EquityPoint) : List ℚ :=
  let days := sortInts (equityCurve.map (fun p => dayKeyOf p.timestamp))
  (days.zip days.tail).filterMap (fun kk =>
    match lastSampleOfDay equityCurve kk.1, lastSampleOfDay equityCurve kk.2 with
    | some prev, some curr =>
      if prev.equity ≠ 0 then some ((curr.equity - prev.equity) / prev.equity) else none
    | _, _ => none)

/-- Modelled from the spec's words: `sharpe = mean(dailyReturns) /
stdev(dailyReturns) × √365` with Bessel's correction, and zero when
fewer than 2 valid daily returns exist or the variance is zero. -/
def specSharpe (sqrt : ℚ → ℚ) (equityCurve : List EquityPoint) : ℚ :=
  let r := specDailyReturns equityCurve
  if r.length < 2 then 0
  else
    let mean := r.sum / (r.length : ℚ)
    let variance := ((r.map (fun x => (x - mean) ^ 2)).sum) / ((r.length : ℚ) - 1)
    if variance = 0 then 0 else mean / sqrt variance * sqrt 365

-- ============================================================
-- Claim theorems
-- ============================================================

-- The batteries rational-arithmetic operations are marked irreducible,
-- which blocks `decide`'s evaluator; restore reducibility for the
-- concrete-scenario evaluations below.
unseal Rat.mul Rat.add Rat.sub Rat.inv Rat.ofScientific

/-- Original position size of the Scenario A trade:
`riskAmount / (distanceToSL / entryPrice)` = `20 / (5.03 / 100.03)`. -/
def scenASize : ℚ := 200060 / 503

/-- Slippage-adjusted gross gain on the full original size of the
Scenario A trade, minus commission charged exactly once per leg (entry
on the full size, the TP1 partial close on half, the final close on the
other half) — the pnl the spec's once-per-leg rule prescribes. -/
def scenAOncePerLegPnl : ℚ :=
  ((110 * (1 - 3 / 10000) - 100 * (1 + 3 / 10000)) / (100 * (1 + 3 / 10000))) * scenASize
    - (scenASize * (6 / 10000)
       + (scenASize / 2) * (6 / 10000)
       + (scenASize / 2) * (6 / 10000))

/-- C2: in Scenario A the engine produces exactly one closed trade with
exit reason "TP1 hit — full close" on the expected original size, but
its pnl falls short of the once-per-leg value by one extra partial-close
commission leg: the TP1 partial's commission is subtracted both inside
the partial's recorded pnl and again through the accrued
`position.commission`, contradicting the once-per-leg accounting the
spec (and the source's own "not double-counted" comment) prescribe. -/
theorem c2_scenarioA_partial_commission_double_charged :
    scenAResult.trades.map Trade.exitReason = ["TP1 hit — full close"] ∧
    scenAResult.trades.map (fun t => t.pos.size) = [scenASize] ∧
    scenAResult.trades.map Trade.pnl
      = [scenAOncePerLegPnl - (scenASize / 2) * (6 / 10000)] ∧
    scenAResult.trades.map Trade.pnl ≠ [scenAOncePerLegPnl] := by
  decide

/-- C1 counterexample: a strategy that signals long entries on
consecutive candles of one symbol ends the run with two positions open
concurrently on that symbol — the USD entry evaluator never checks
whether the symbol already has an open position. -/
theorem c1_counterexample_two_positions_same_symbol :
    scenC1State.openPositions.map (fun p => p.symbol) = ["AAA", "AAA"] := by
  decide

/-- C3 counterexample: a leveraged (2x) position whose ratio has dropped
12% from entry — at least the claimed 10% leveraged stop distance — is
left untouched by the exit cascade (outcome `keep`), and the run closes
it only at the end of the backtest; the stop-loss threshold in the code
is 15% regardless of leverage. -/
theorem c3_counterexample_no_stop_at_12pct_drop :
    scenC3Pos.leverage > 1 ∧
    (mkAltCandle "EEE" 43200000 (88 / 100)).close
      ≤ scenC3Pos.entryRatio * (1 - 10 / 100) ∧
    btcCheckExitsOne scenC3Strategy FUTURES_COMMISSION_RATE
      (scenC3Data.getD 0 default).2 1 (mkAltCandle "EEE" 43200000 (88 / 100))
      43200000 (-12) (-12) scenC3Pos
      = BtcExitOutcome.keep scenC3Pos ∧
    scenC3Result.trades.map (fun t => t.pos.exitReason) = [some "backtest_end"] := by
  decide

/-- C8 counterexample: in the BTC variant a candidate entry whose entry
ratio is zero is not rejected — a position is opened and a trade is
created (realising `-btcAllocated`), because the entry path checks only
the minimum-allocation floor. -/
theorem c8_counterexample_btc_zero_entry_ratio_trades :
    (scenC8Data.getD 0 default).2.map (fun c => c.close) = [0] ∧
    scenC8Result.totalTrades = 1 ∧
    scenC8Result.trades.map (fun t => t.btcPnl) = [-(1 / 40)] := by
  decide

/-- C10 counterexample: a run in which a profitable TP1 partial close
occurs (realising +0.00149 BTC, recorded in the verification ghost and
in no trade) while a strategy partial exit realises exactly -0.00149
BTC, so `finalBtc - startingBtc` equals the sum of `btcPnl` over the
completed trades after all. -/
theorem c10_counterexample_tp1_profit_offset :
    scenC10State.tp1PartPnls = [149 / 100000] ∧
    ((0 : ℚ) < 149 / 100000) ∧
    scenC10Result.finalBtc - scenC10Result.startingBtc
      = (scenC10Result.trades.map (fun t => t.btcPnl)).sum := by
  decide

/-- C4 counterexample: with no candle data loaded at all, two runs of
the USD engine that differ only in the wall clock (`Date.now()`) return
different `BacktestResult` values — the final equity point is stamped
with the wall-clock time. -/
theorem c4_counterexample_wall_clock_on_empty_data :
    runBacktest emptyEnv scenAConfig 0 ≠ runBacktest emptyEnv scenAConfig 1 := by
  decide

/-- C7 counterexample: on an equity curve that dips below zero the
reported `maxDrawdownPercent` is 150, outside `[0, 100]`. -/
theorem c7_counterexample_drawdown_percent_above_100 :
    ¬ (calculateResults emptyEnv scenAConfig [] negCurve).maxDrawdownPercent ≤ 100 := by
  decide

/-- A fold whose step ignores its element is the identity. -/
theorem foldl_id_of_step_id {α β : Type} {f : β → α → β} {l : List α}
    (h : ∀ b a, a ∈ l → f b a = b) : ∀ b, l.foldl f b = b := by
  induction l with
  | nil => intro b; rfl
  | cons x xs ih =>
    intro b
    rw [List.foldl_cons, h b x (List.mem_cons_self x xs)]
    exact ih (fun b a ha => h b a (List.mem_cons_of_mem x ha)) b

/-- With no candle data for any symbol, the load phase produces nothing. -/
theorem loadSymbolData_of_no_data (env : Env) (strat : Strategy) (tf : String)
    (symbols : List String)
    (hL : ∀ s t, env.loadCandles s t = none ∨ env.loadCandles s t = some []) :
    loadSymbolData env strat tf symbols = ([], []) := by
  unfold loadSymbolData
  refine foldl_id_of_step_id (fun acc s _ => ?_) ([], [])
  rcases hL s tf with h1 | h1 <;> simp [h1]

/-- C9: with zero candles available for every configured symbol, both
engines return a well-defined result with no trades and the starting
capital intact: the USD result has `totalTrades = 0` and `finalEquity =
startingCapital`, and the BTC engine (whose ratio-candle builder yields
an entry only for symbols with data, so every entry present has an empty
candle list) returns its `emptyResult` with `totalTrades = 0` and
`finalBtc = startingBtc`. -/
theorem c9_zero_candles_boundary (env : Env) (config : BacktestConfig) (now : ℤ)
    (hL : ∀ s t, env.loadCandles s t = none ∨ env.loadCandles s t = some [])
    (allAlt : List (String × List AltBtcCandle))
    (hB : ∀ e ∈ allAlt, e.2 = ([] : List AltBtcCandle))
    (bstrat : BtcStrategy) :
    (runBacktest env config now).totalTrades = 0 ∧
    (runBacktest env config now).finalEquity = config.startingCapital ∧
    (runBtcBacktest allAlt bstrat).totalTrades = 0 ∧
    (runBtcBacktest allAlt bstrat).finalBtc = (runBtcBacktest allAlt bstrat).startingBtc := by
  have hload := loadSymbolData_of_no_data env config.strategy config.timeframe
    config.symbols hL
  have husd : runBacktest env config now
      = calculateResults env config []
          [{ timestamp := now, equity := config.startingCapital }] := by
    unfold runBacktest usdSimulate
    rw [hload]
    simp [buildTimeline, initState]
  have hbtc : runBtcBacktest allAlt bstrat = emptyResult bstrat.name := by
    unfold runBtcBacktest
    by_cases hA : allAlt = []
    · simp [hA]
    · have htl : buildBtcTimeline allAlt = [] := by
        unfold buildBtcTimeline
        refine foldl_id_of_step_id (fun b e he => ?_) []
        rw [hB e he]
        rfl
      simp [hA, htl]
  refine ⟨?_, ?_, ?_, ?_⟩
  · rw [husd]; rfl
  · rw [husd]
    show config.startingCapital + 0 = config.startingCapital
    exact add_zero _
  · rw [hbtc]; rfl
  · rw [hbtc]; rfl

/-- Closed instance of `c9_zero_candles_boundary` at a concrete empty
provider, configuration and strategy. -/
theorem c9_zero_candles_boundary_witness :
    (runBacktest emptyEnv scenAConfig 0).totalTrades = 0 ∧
    (runBacktest emptyEnv scenAConfig 0).finalEquity = scenAConfig.startingCapital ∧
    (runBtcBacktest [] scenC8Strategy).totalTrades = 0 ∧
    (runBtcBacktest [] scenC8Strategy).finalBtc
      = (runBtcBacktest [] scenC8Strategy).startingBtc :=
  c9_zero_candles_boundary emptyEnv scenAConfig 0
    (fun _ _ => Or.inl rfl) [] (fun e he => absurd he (List.not_mem_nil e))
    scenC8Strategy

/-- C4 (amended): the USD engine is a pure function of (data, config,
strategy) whenever at least one candle loads — the two results of runs
differing only in the wall clock are identical in every field.  Only in
the no-data case does the wall clock leak into the result (it stamps the
final equity point), as the counterexample shows. -/
theorem c4_deterministic_when_data_nonempty (env : Env) (config : BacktestConfig)
    (h : (usdSimulate env config).2.2 ≠ []) (now now' : ℤ) :
    runBacktest env config now = runBacktest env config now' := by
  obtain ⟨x, hx⟩ : ∃ x, (usdSimulate env config).2.2.getLast? = some x := by
    cases hl : (usdSimulate env config).2.2.getLast? with
    | none => exact absurd (List.getLast?_eq_none_iff.mp hl) h
    | some x => exact ⟨x, rfl⟩
  simp only [runBacktest, hx]

/-- Closed instance of `c4_deterministic_when_data_nonempty` on the
Scenario A inputs with two different wall-clock values. -/
theorem c4_deterministic_when_data_nonempty_witness :
    runBacktest scenAEnv scenAConfig 5 = runBacktest scenAEnv scenAConfig 99 :=
  c4_deterministic_when_data_nonempty scenAEnv scenAConfig (by decide) 5 99

/-- A flat enriched candle at price 95 whose long entry price with zero
slippage coincides with a stop loss of 95. -/
def c8wCandle : CandleWithIndicators :=
  { timestamp := 0, open_ := 95, high := 95, low := 95, close := 95
    volume := 0, turnover := 0, indicators := noIndicators }

/-- An entry signal whose stop loss equals the candle close. -/
def c8wSignal : EntrySignal :=
  { enter := true, stopLoss := 95, takeProfit := 110, takeProfit2 := none
    reason := "degenerate" }

/-- C8 (amended): the USD entry evaluator rejects a candidate entry with
zero stop distance (no position is opened), and the BTC close
computation returns zero BTC for a zero entry ratio; but the BTC entry
path does not reject a zero entry ratio — a position is opened and its
eventual close produces a trade realising `-btcAllocated`, as the
concrete zero-ratio run shows. -/
theorem c8_degenerate_arithmetic_handling :
    (∀ (riskPerTrade leverage slippageRate commissionRate : ℚ) (symbol : String)
       (candle : CandleWithIndicators) (equity : ℚ) (acc : List Position × ℕ)
       (signal : EntrySignal) (side : Side),
       (match side with
        | Side.long => candle.close * (1 + slippageRate)
        | Side.short => candle.close * (1 - slippageRate)) = signal.stopLoss →
       tryEnterOne riskPerTrade leverage slippageRate commissionRate symbol
         candle equity acc signal side = acc) ∧
    (∀ (btcAllocated exitRatio leverage commissionRate : ℚ),
       calculateBtcReturn btcAllocated 0 exitRatio leverage commissionRate = 0) ∧
    scenC8Result.trades.map (fun t => (t.pos.entryRatio, t.btcPnl))
      = [(0, -(1 / 40))] := by
  refine ⟨?_, ?_, by decide⟩
  · intro riskPerTrade leverage slippageRate commissionRate symbol candle equity
      acc signal side h
    unfold tryEnterOne
    rw [h]
    simp
  · intro btcAllocated exitRatio leverage commissionRate
    unfold calculateBtcReturn
    simp

/-- Closed instance of `c8_degenerate_arithmetic_handling`: a zero-
distance USD entry leaves the ledger untouched, and a zero entry ratio
yields zero BTC on close. -/
theorem c8_degenerate_arithmetic_handling_witness :
    tryEnterOne (4 / 100) 3 0 (6 / 10000) "AAA" c8wCandle 500 ([], 0)
      c8wSignal Side.long = ([], 0) ∧
    calculateBtcReturn (1 / 40) 0 (3 / 2) 1 (1 / 1000) = 0 :=
  ⟨c8_degenerate_arithmetic_handling.1 (4 / 100) 3 0 (6 / 10000) "AAA"
      c8wCandle 500 ([], 0) c8wSignal Side.long (by decide),
   c8_degenerate_arithmetic_handling.2.1 (1 / 40) (3 / 2) 1 (1 / 1000)⟩

/-- The exit reason of a full-close outcome of the BTC exit cascade. -/
def exitReasonOfOutcome : BtcExitOutcome → Option String
  | BtcExitOutcome.fullClose t _ => t.pos.exitReason
  | BtcExitOutcome.reduced _ _ _ => none
  | BtcExitOutcome.keep _ => none

/-- C3 (amended): the BTC stop-loss rule performs a full close exactly
when the ratio has dropped at least `STOP_LOSS_PCT` = 15% from the entry
ratio — the same threshold for spot and leveraged positions (the rule
never consults the leverage; a 10% drop on a leveraged position does not
trigger it).  Stated for strategies whose own exit reasons never reuse
the engine's "stop_loss" tag. -/
theorem c3_stop_loss_threshold_is_15pct_for_all_leverage
    (strategy : BtcStrategy) (commissionRate : ℚ)
    (altCandles : List AltBtcCandle) (candleIdx : ℕ) (currentCandle : AltBtcCandle)
    (timestamp : ℤ) (avgRatioTrend1d avgRatioTrend7d : ℚ) (pos : BtcPosition)
    (hne : ∀ p cs i r, (strategy.shouldExit p cs i r).reason ≠ "stop_loss") :
    STOP_LOSS_PCT = 15 / 100 ∧
    (exitReasonOfOutcome
        (btcCheckExitsOne strategy commissionRate altCandles candleIdx
          currentCandle timestamp avgRatioTrend1d avgRatioTrend7d pos)
        = some "stop_loss"
      ↔ currentCandle.close ≤ pos.entryRatio * (1 - STOP_LOSS_PCT)) := by
  refine ⟨rfl, ?_⟩
  constructor
  · intro hh
    simp only [btcCheckExitsOne] at hh
    by_cases h1 : currentCandle.close ≤ pos.entryRatio * (1 - STOP_LOSS_PCT)
    · exact h1
    rw [if_neg h1] at hh
    by_cases h2 : avgRatioTrend1d > DOMINANCE_TREND_THRESHOLD
    · rw [if_pos h2] at hh
      simp [exitReasonOfOutcome, btcClosePosition] at hh
    rw [if_neg h2] at hh
    by_cases h3 : (¬pos.tp1Hit) ∧
        currentCandle.close ≥ pos.entryRatio * (1 + TP1_PCT)
    · rw [if_pos h3] at hh
      simp [exitReasonOfOutcome] at hh
    rw [if_neg h3] at hh
    by_cases h4 : pos.tp1Hit ∧ currentCandle.close ≥ pos.entryRatio * (1 + TP2_PCT)
    · rw [if_pos h4] at hh
      simp [exitReasonOfOutcome, btcClosePosition] at hh
    rw [if_neg h4] at hh
    by_cases h5 : timestamp - pos.entryTime ≥ MAX_HOLD_MS
    · rw [if_pos h5] at hh
      simp [exitReasonOfOutcome, btcClosePosition] at hh
    rw [if_neg h5] at hh
    by_cases h6 : (strategy.shouldExit pos altCandles candleIdx avgRatioTrend7d).exit
    · rw [if_pos h6] at hh
      by_cases h7 : (1 : ℚ) ≤
          (if 0 < (strategy.shouldExit pos altCandles candleIdx avgRatioTrend7d).sellFraction ∧
              (strategy.shouldExit pos altCandles candleIdx avgRatioTrend7d).sellFraction ≤ 1 then
            (strategy.shouldExit pos altCandles candleIdx avgRatioTrend7d).sellFraction
          else 1)
      · rw [if_pos h7] at hh
        simp [exitReasonOfOutcome, btcClosePosition] at hh
        exact absurd hh (hne pos altCandles candleIdx avgRatioTrend7d)
      · rw [if_neg h7] at hh
        simp [exitReasonOfOutcome] at hh
    · rw [if_neg h6] at hh
      simp [exitReasonOfOutcome] at hh
  · intro hr
    simp only [btcCheckExitsOne]
    rw [if_pos hr]
    simp [exitReasonOfOutcome, btcClosePosition]

/-- Closed instance of `c3_stop_loss_threshold_is_15pct_for_all_leverage`
at the leveraged scenario position and a candle 16% below entry. -/
theorem c3_stop_loss_threshold_is_15pct_witness :
    STOP_LOSS_PCT = 15 / 100 ∧
    (exitReasonOfOutcome
        (btcCheckExitsOne scenC3Strategy FUTURES_COMMISSION_RATE
          (scenC3Data.getD 0 default).2 1 (mkAltCandle "EEE" 43200000 (84 / 100))
          43200000 0 0 scenC3Pos)
        = some "stop_loss"
      ↔ (mkAltCandle "EEE" 43200000 (84 / 100)).close
          ≤ scenC3Pos.entryRatio * (1 - STOP_LOSS_PCT)) :=
  c3_stop_loss_threshold_is_15pct_for_all_leverage scenC3Strategy
    FUTURES_COMMISSION_RATE (scenC3Data.getD 0 default).2 1
    (mkAltCandle "EEE" 43200000 (84 / 100)) 43200000 0 0 scenC3Pos
    (fun _ _ _ _ => (by decide : ("" : String) ≠ "stop_loss"))

/-- The drawdown-scan fold keeps `maxDrawdownPercent` inside `[0, 100]`
and the peak nonnegative, provided the starting state does and every
equity point is nonnegative. -/
theorem drawdown_fold_bounds (curve : List EquityPoint)
    (h : ∀ p ∈ curve, 0 ≤ p.equity) :
    ∀ acc : ℚ × ℚ × ℚ, 0 ≤ acc.1 → 0 ≤ acc.2.1 → acc.2.1 ≤ 100 → 0 ≤ acc.2.2 →
      0 ≤ (curve.foldl drawdownStep acc).2.1 ∧
      (curve.foldl drawdownStep acc).2.1 ≤ 100 := by
  induction curve with
  | nil => intro acc _ h2 h3 _; exact ⟨h2, h3⟩
  | cons p rest ih =>
    intro acc h1 h2 h3 h4
    rw [List.foldl_cons]
    have hp : 0 ≤ p.equity := h p (List.mem_cons_self p rest)
    have hrest : ∀ q ∈ rest, 0 ≤ q.equity :=
      fun q hq => h q (List.mem_cons_of_mem p hq)
    unfold drawdownStep
    set peak := if p.equity > acc.2.2 then p.equity else acc.2.2 with hpeak
    have hpeak0 : 0 ≤ peak := by
      rw [hpeak]; split_ifs with hgt
      · exact hp
      · exact h4
    have hple : p.equity ≤ peak := by
      rw [hpeak]; split_ifs with hgt
      · exact le_refl _
      · exact le_of_not_lt hgt
    by_cases hd : peak - p.equity > acc.1
    · rw [if_pos hd]
      have hdd0 : 0 < peak - p.equity := lt_of_le_of_lt h1 hd
      have hpk : 0 < peak := lt_of_le_of_lt hp (by linarith)
      refine ih hrest _ (by dsimp only; linarith) ?_ ?_ hpeak0
      · dsimp only
        positivity
      · dsimp only
        rw [div_mul_eq_mul_div, div_le_iff₀ hpk]
        nlinarith
    · rw [if_neg hd]
      exact ih hrest _ h1 h2 h3 hpeak0

/-- The `peak` variable of the drawdown scan only ever rises. -/
theorem ddPeaks_chain (curve : List EquityPoint) :
    ∀ acc : ℚ × ℚ × ℚ,
      List.Chain' (· ≤ ·) ((List.scanl drawdownStep acc curve).map (fun s => s.2.2)) := by
  induction curve with
  | nil => intro acc; simp
  | cons p rest ih =>
    intro acc
    have hstep : acc.2.2 ≤ (drawdownStep acc p).2.2 := by
      unfold drawdownStep
      split_ifs <;> dsimp only <;> split_ifs <;> dsimp only <;>
        first | linarith | exact le_refl _
    rw [List.scanl_cons, List.singleton_append, List.map_cons, List.chain'_cons']
    refine ⟨?_, ih (drawdownStep acc p)⟩
    intro y hy
    have hhead : ((List.scanl drawdownStep (drawdownStep acc p) rest).map
        (fun s => s.2.2)).head? = some (drawdownStep acc p).2.2 := by
      cases rest <;> simp [List.scanl_cons, List.scanl]
    rw [hhead, Option.mem_def, Option.some_inj] at hy
    rw [hy] at hstep
    exact hstep

/-- C7 (amended): the peak tracked by the drawdown scan is monotonically
non-decreasing for every equity curve, and the reported
`maxDrawdownPercent` lies in `[0, 100]` provided every equity sample is
nonnegative (an equity curve that dips below zero — possible when losses
exceed the starting capital — can push it above 100, as the
counterexample shows). -/
theorem c7_peak_monotone_and_percent_bounds (env : Env) (config : BacktestConfig)
    (trades : List Trade) (curve : List EquityPoint)
    (h : ∀ p ∈ curve, 0 ≤ p.equity) :
    List.Chain' (· ≤ ·) (ddPeaks config.startingCapital curve) ∧
    0 ≤ (calculateResults env config trades curve).maxDrawdownPercent ∧
    (calculateResults env config trades curve).maxDrawdownPercent ≤ 100 := by
  refine ⟨ddPeaks_chain curve _, ?_, ?_⟩
  · show 0 ≤ (drawdownScan config.startingCapital curve).2.1
    unfold drawdownScan
    cases curve with
    | nil => norm_num
    | cons p rest =>
      exact (drawdown_fold_bounds (p :: rest) h _ (le_refl 0) (le_refl 0)
        (by norm_num) (by simpa using h p (List.mem_cons_self p rest))).1
  · show (drawdownScan config.startingCapital curve).2.1 ≤ 100
    unfold drawdownScan
    cases curve with
    | nil => norm_num
    | cons p rest =>
      exact (drawdown_fold_bounds (p :: rest) h _ (le_refl 0) (le_refl 0)
        (by norm_num) (by simpa using h p (List.mem_cons_self p rest))).2

/-- Closed instance of `c7_peak_monotone_and_percent_bounds` on a
concrete nonnegative equity curve. -/
theorem c7_peak_monotone_and_percent_bounds_witness :
    List.Chain' (· ≤ ·) (ddPeaks scenAConfig.startingCapital
      [{ timestamp := 0, equity := 100 }, { timestamp := 1, equity := 40 }]) ∧
    0 ≤ (calculateResults emptyEnv scenAConfig []
      [{ timestamp := 0, equity := 100 }, { timestamp := 1, equity := 40 }]).maxDrawdownPercent ∧
    (calculateResults emptyEnv scenAConfig []
      [{ timestamp := 0, equity := 100 }, { timestamp := 1, equity := 40 }]).maxDrawdownPercent ≤ 100 :=
  c7_peak_monotone_and_percent_bounds emptyEnv scenAConfig []
    [{ timestamp := 0, equity := 100 }, { timestamp := 1, equity := 40 }]
    (by decide)

/-- A fold preserves a predicate its step preserves. -/
theorem foldl_preserves {α β : Type} {P : β → Prop} {f : β → α → β} :
    ∀ {l : List α}, (∀ b a, a ∈ l → P b → P (f b a)) → ∀ {b}, P b → P (l.foldl f b)
  | [], _, _, hb => hb
  | x :: xs, h, b, hb =>
    foldl_preserves (fun b a ha => h b a (List.mem_cons_of_mem x ha))
      (h b x (List.mem_cons_self x xs) hb)

/-- Processing one entry signal adds at most one open position. -/
theorem tryEnterOne_length_le (riskPerTrade leverage slippageRate commissionRate : ℚ)
    (symbol : String) (candle : CandleWithIndicators) (equity : ℚ)
    (acc : List Position × ℕ) (signal : EntrySignal) (side : Side) :
    (tryEnterOne riskPerTrade leverage slippageRate commissionRate symbol candle
      equity acc signal side).1.length ≤ acc.1.length + 1 := by
  obtain ⟨openPositions, counter⟩ := acc
  simp only [tryEnterOne]
  split_ifs <;> simp

/-- The signal loop never pushes the open-position count above the
concurrency cap. -/
theorem entryLoop_length_le (riskPerTrade leverage slippageRate commissionRate : ℚ)
    (maxConcurrentPositions : ℕ) (symbol : String) (candle : CandleWithIndicators)
    (equity : ℚ) :
    ∀ (signals : List (EntrySignal × Side)) (acc : List Position × ℕ),
      acc.1.length ≤ maxConcurrentPositions →
      (entryLoop riskPerTrade leverage slippageRate commissionRate
        maxConcurrentPositions symbol candle equity signals acc).1.length
        ≤ maxConcurrentPositions := by
  intro signals
  induction signals with
  | nil => intro acc hacc; exact hacc
  | cons s rest ih =>
    intro acc hacc
    unfold entryLoop
    split_ifs with hfull
    · exact hacc
    · refine ih _ ?_
      have hlt : acc.1.length < maxConcurrentPositions := lt_of_not_le hfull
      calc (tryEnterOne riskPerTrade leverage slippageRate commissionRate symbol
              candle equity acc s.1 s.2).1.length
          ≤ acc.1.length + 1 := tryEnterOne_length_le _ _ _ _ _ _ _ _ _ _
        _ ≤ maxConcurrentPositions := hlt

/-- The per-symbol step keeps the open-position count within the cap. -/
theorem processSymbol_length_le (strategy : Strategy)
    (slippageRate commissionRate riskPerTrade leverage : ℚ)
    (maxConcurrentPositions : ℕ)
    (multiTfBySymbol : List (String × MultiTimeframeData)) (ts : ℤ)
    (st : RunState) (e : String × List CandleWithIndicators)
    (hst : st.openPositions.length ≤ maxConcurrentPositions) :
    (processSymbol strategy slippageRate commissionRate riskPerTrade leverage
      maxConcurrentPositions multiTfBySymbol ts st e).openPositions.length
      ≤ maxConcurrentPositions := by
  rcases hidx : lastIdxOf e.2 ts with _ | ⟨candleIdx, candle⟩
  · simp only [processSymbol, hidx]
    exact hst
  · simp only [processSymbol, hidx]
    split_ifs with hcap <;>
      first
      | exact entryLoop_length_le _ _ _ _ _ _ _ _ _ _ (le_of_lt hcap)
      | exact le_trans (List.length_filterMap_le _ _)
          ((List.length_map _ _).le.trans hst)

/-- C1 (amended): the USD entry evaluator enforces only the global
concurrency cap: starting from the initial state, after processing any
sequence of timestamps at most `maxConcurrentPositions` positions are
open — but nothing bounds the number of open positions per symbol, and
the counterexample run holds two concurrent positions on one symbol. -/
theorem c1_usd_entries_enforce_only_global_cap (strategy : Strategy)
    (slippageRate commissionRate riskPerTrade leverage : ℚ)
    (maxConcurrentPositions : ℕ) (startingCapital : ℚ)
    (symbolDataList : List (String × List CandleWithIndicators))
    (multiTfBySymbol : List (String × MultiTimeframeData)) (lastTs : ℤ)
    (tss : List ℤ) :
    ((tss.foldl
        (processTimestamp strategy slippageRate commissionRate riskPerTrade
          leverage maxConcurrentPositions startingCapital symbolDataList
          multiTfBySymbol lastTs)
        (initState startingCapital)).openPositions).length
      ≤ maxConcurrentPositions := by
  refine foldl_preserves (P := fun st : RunState =>
    st.openPositions.length ≤ maxConcurrentPositions) ?_ ?_
  · intro st ts _ hst
    simp only [processTimestamp]
    have hsym : ((symbolDataList.foldl
        (processSymbol strategy slippageRate commissionRate riskPerTrade leverage
          maxConcurrentPositions multiTfBySymbol ts) st)).openPositions.length
        ≤ maxConcurrentPositions := by
      refine foldl_preserves (P := fun st : RunState =>
        st.openPositions.length ≤ maxConcurrentPositions) ?_ hst
      intro st' e _ hst'
      exact processSymbol_length_le strategy slippageRate commissionRate
        riskPerTrade leverage maxConcurrentPositions multiTfBySymbol ts st' e hst'
    split_ifs <;> exact hsym
  · exact Nat.zero_le _

-- ============================================================
-- Size accounting of the USD position lifecycle (claim C5)
-- ============================================================

/-- Total size already closed by partial closes (the subtrahend of
`remainingSize`). -/
def sumPartSizes (position : Position) : ℚ :=
  position.partCloses.foldl (fun sum pc => sum + pc.size) 0

/-- A position whose partial closes do not exceed its size — equivalent
to `0 ≤ remainingSize`. -/
def PosOk (position : Position) : Prop := sumPartSizes position ≤ position.size

/-- Size-accounting soundness of an exit outcome. -/
def outcomeOk : ExitOutcome → Prop
  | ExitOutcome.closed t => PosOk t.pos
  | ExitOutcome.stillOpen p => PosOk p

theorem remainingSize_eq (position : Position) :
    remainingSize position = position.size - sumPartSizes position := rfl

theorem sumPartSizes_append (position : Position) (pc : PartClose) :
    sumPartSizes { position with partCloses := position.partCloses ++ [pc] }
      = sumPartSizes position + pc.size := by
  unfold sumPartSizes
  rw [List.foldl_append]
  rfl

/-- A partial close keeps the size and adds `remainingSize * fraction`
to the closed total. -/
theorem partClosePosition_spec (position : Position) (price fraction : ℚ)
    (timestamp : ℤ) (reason : String) (slippageRate commissionRate : ℚ) :
    (partClosePosition position price fraction timestamp reason
      slippageRate commissionRate).size = position.size ∧
    sumPartSizes (partClosePosition position price fraction timestamp reason
      slippageRate commissionRate)
      = sumPartSizes position + remainingSize position * fraction := by
  constructor
  · rfl
  · show ((position.partCloses ++ [_]).foldl
        (fun (sum : ℚ) (pc : PartClose) => sum + pc.size) 0) = _
    rw [List.foldl_append]
    rfl

/-- A 50% partial close keeps the closed total within the size. -/
theorem partClosePosition_half_ok (position : Position)
    (price : ℚ) (timestamp : ℤ) (reason : String) (slippageRate commissionRate : ℚ)
    (hp : PosOk position) :
    PosOk (partClosePosition position price (1 / 2) timestamp reason
      slippageRate commissionRate) := by
  have hs := partClosePosition_spec position price (1 / 2) timestamp reason
    slippageRate commissionRate
  unfold PosOk at hp ⊢
  rw [hs.1, hs.2, remainingSize_eq]
  linarith

/-- Closing a position does not change its recorded partial closes or
size, so size accounting carries over to the trade. -/
theorem closePosition_ok (position : Position) (exitPrice : ℚ) (exitTime : ℤ)
    (exitReason : String) (slippageRate commissionRate : ℚ)
    (hp : PosOk position) :
    PosOk (closePosition position exitPrice exitTime exitReason
      slippageRate commissionRate).pos := hp

/-- The trailing-stop update preserves size accounting (it only touches
stops). -/
theorem exitStep5_ok (candle : CandleWithIndicators) (position : Position)
    (h : PosOk position) : outcomeOk (exitStep5 candle position) := by
  unfold exitStep5
  cases hatr : candle.indicators.atr with
  | none => exact h
  | some a =>
    cases hside : position.side <;>
      cases htr : position.trailingStop <;>
        · simp only [apply_ite outcomeOk, outcomeOk]
          split_ifs <;> exact h

/-- The strategy-exit rule preserves size accounting. -/
theorem exitStep4_ok (strategy : Strategy) (slippageRate commissionRate : ℚ)
    (candles : List CandleWithIndicators) (candleIdx : ℕ)
    (candle : CandleWithIndicators) (multiTfData : Option MultiTimeframeData)
    (position : Position) (h : PosOk position) :
    outcomeOk (exitStep4 strategy slippageRate commissionRate candles candleIdx
      candle multiTfData position) := by
  simp only [exitStep4]
  split_ifs
  · exact h
  · exact exitStep5_ok candle position h

/-- The TP2 rule preserves size accounting. -/
theorem exitStep3_ok (strategy : Strategy) (slippageRate commissionRate : ℚ)
    (candles : List CandleWithIndicators) (candleIdx : ℕ)
    (candle : CandleWithIndicators) (multiTfData : Option MultiTimeframeData)
    (position : Position) (h : PosOk position) :
    outcomeOk (exitStep3 strategy slippageRate commissionRate candles candleIdx
      candle multiTfData position) := by
  unfold exitStep3
  cases htp : position.takeProfit2 with
  | none =>
    exact exitStep4_ok strategy slippageRate commissionRate candles
      candleIdx candle multiTfData position h
  | some tp2 =>
    dsimp only
    split_ifs
    · exact h
    · exact exitStep4_ok strategy slippageRate commissionRate candles
        candleIdx candle multiTfData position h

/-- The TP1 rule preserves size accounting: the 50% partial close keeps
the closed total within the size, and every continuation works on that
partially closed position. -/
theorem exitStep2_ok (strategy : Strategy) (slippageRate commissionRate : ℚ)
    (candles : List CandleWithIndicators) (candleIdx : ℕ)
    (candle : CandleWithIndicators) (multiTfData : Option MultiTimeframeData)
    (position : Position) (h : PosOk position) :
    outcomeOk (exitStep2 strategy slippageRate commissionRate candles candleIdx
      candle multiTfData position) := by
  have hq := partClosePosition_half_ok position position.takeProfit
    candle.timestamp "TP1 hit — partial close 50%" slippageRate commissionRate h
  simp only [exitStep2]
  split_ifs
  · cases htp : (partClosePosition position position.takeProfit (1 / 2)
        candle.timestamp "TP1 hit — partial close 50%" slippageRate
        commissionRate).takeProfit2 with
    | none =>
      simp only [htp]
      exact hq
    | some tp2 =>
      simp only [htp]
      exact exitStep3_ok strategy slippageRate commissionRate candles
        candleIdx candle multiTfData _ hq
  · exact exitStep3_ok strategy slippageRate commissionRate candles candleIdx
      candle multiTfData position h

/-- The USD exit cascade preserves size accounting: whatever rule fires,
the resulting trade or surviving position keeps the closed total within
the original size. -/
theorem checkExitsOne_ok (strategy : Strategy) (slippageRate commissionRate : ℚ)
    (candles : List CandleWithIndicators) (candleIdx : ℕ)
    (candle : CandleWithIndicators) (multiTfData : Option MultiTimeframeData)
    (position : Position) (hp : PosOk position) :
    outcomeOk (checkExitsOne strategy slippageRate commissionRate candles
      candleIdx candle multiTfData position) := by
  simp only [checkExitsOne]
  split_ifs
  · exact hp
  · exact exitStep2_ok strategy slippageRate commissionRate candles candleIdx
      candle multiTfData position hp

/-- Size accounting over a whole engine state: every open position and
every completed trade keeps its closed total within its size. -/
def stateOk (st : RunState) : Prop :=
  (∀ p ∈ st.openPositions, PosOk p) ∧ (∀ t ∈ st.completedTrades, PosOk t.pos)

/-- New entries are created with no partial closes and positive size. -/
theorem tryEnterOne_ok (riskPerTrade leverage slippageRate commissionRate : ℚ)
    (symbol : String) (candle : CandleWithIndicators) (equity : ℚ)
    (acc : List Position × ℕ) (signal : EntrySignal) (side : Side)
    (hacc : ∀ p ∈ acc.1, PosOk p) :
    ∀ p ∈ (tryEnterOne riskPerTrade leverage slippageRate commissionRate symbol
      candle equity acc signal side).1, PosOk p := by
  obtain ⟨openPositions, counter⟩ := acc
  simp only [tryEnterOne]
  split_ifs with h1 h2 h3 h4 <;>
    try exact hacc
  all_goals
    intro p hp
    rcases List.mem_append.mp hp with hpl | hpr
    · exact hacc p hpl
    · rw [List.mem_singleton.mp hpr]
      show sumPartSizes _ ≤ _
      simp only [sumPartSizes, List.foldl_nil]
      linarith

/-- The entry signal loop preserves size accounting of the ledger. -/
theorem entryLoop_ok (riskPerTrade leverage slippageRate commissionRate : ℚ)
    (maxConcurrentPositions : ℕ) (symbol : String)
    (candle : CandleWithIndicators) (equity : ℚ) :
    ∀ (signals : List (EntrySignal × Side)) (acc : List Position × ℕ),
      (∀ p ∈ acc.1, PosOk p) →
      ∀ p ∈ (entryLoop riskPerTrade leverage slippageRate commissionRate
        maxConcurrentPositions symbol candle equity signals acc).1, PosOk p := by
  intro signals
  induction signals with
  | nil => intro acc hacc; exact hacc
  | cons s rest ih =>
    intro acc hacc
    unfold entryLoop
    split_ifs
    · exact hacc
    · exact ih _ (tryEnterOne_ok riskPerTrade leverage slippageRate
        commissionRate symbol candle equity acc s.1 s.2 hacc)

/-- Surviving positions of an exit pass satisfy size accounting. -/
theorem filterMap_stillOpen_ok (f : Position → ExitOutcome) (l : List Position)
    (hl : ∀ p ∈ l, outcomeOk (f p)) :
    ∀ q ∈ (l.map f).filterMap (fun o =>
      match o with
      | ExitOutcome.stillOpen p => some p
      | ExitOutcome.closed _ => none), PosOk q := by
  intro q hq
  rcases List.mem_filterMap.mp hq with ⟨o, ho, hoq⟩
  rcases List.mem_map.mp ho with ⟨p, hp, hfp⟩
  have hok := hl p hp
  rw [hfp] at hok
  cases o with
  | closed t => simp at hoq
  | stillOpen r =>
    simp only [Option.some_inj] at hoq
    rw [← hoq]
    exact hok

/-- Trades emitted by an exit pass satisfy size accounting. -/
theorem filterMap_closed_ok (f : Position → ExitOutcome) (l : List Position)
    (hl : ∀ p ∈ l, outcomeOk (f p)) :
    ∀ t ∈ ((l.map f).reverse).filterMap (fun o =>
      match o with
      | ExitOutcome.closed t => some t
      | ExitOutcome.stillOpen _ => none), PosOk t.pos := by
  intro t ht
  rcases List.mem_filterMap.mp ht with ⟨o, ho, hot⟩
  rcases List.mem_map.mp (List.mem_reverse.mp ho) with ⟨p, hp, hfp⟩
  have hok := hl p hp
  rw [hfp] at hok
  cases o with
  | closed u =>
    simp only [Option.some_inj] at hot
    rw [← hot]
    exact hok
  | stillOpen r => simp at hot

/-- The per-symbol step preserves size accounting of the whole state. -/
theorem processSymbol_ok (strategy : Strategy)
    (slippageRate commissionRate riskPerTrade leverage : ℚ)
    (maxConcurrentPositions : ℕ)
    (multiTfBySymbol : List (String × MultiTimeframeData)) (ts : ℤ)
    (st : RunState) (e : String × List CandleWithIndicators)
    (hst : stateOk st) :
    stateOk (processSymbol strategy slippageRate commissionRate riskPerTrade
      leverage maxConcurrentPositions multiTfBySymbol ts st e) := by
  rcases hidx : lastIdxOf e.2 ts with _ | ⟨candleIdx, candle⟩
  · simp only [processSymbol, hidx]
    exact hst
  · have hl : ∀ p ∈ st.openPositions, outcomeOk ((fun position =>
        if position.symbol = e.1 then
          checkExitsOne strategy slippageRate commissionRate e.2 candleIdx candle
            (lookupAssoc multiTfBySymbol e.1) position
        else ExitOutcome.stillOpen position) p) := by
      intro p hp
      dsimp only
      split_ifs
      · exact checkExitsOne_ok strategy slippageRate commissionRate e.2
          candleIdx candle (lookupAssoc multiTfBySymbol e.1) p (hst.1 p hp)
      · exact hst.1 p hp
    simp only [processSymbol, hidx]
    split_ifs <;>
      refine ⟨?_, fun t ht => (List.mem_append.mp ht).elim (hst.2 t)
        (filterMap_closed_ok _ _ hl t)⟩ <;>
      first
      | exact entryLoop_ok _ _ _ _ _ _ _ _ _ _ (filterMap_stillOpen_ok _ _ hl)
      | exact filterMap_stillOpen_ok _ _ hl

/-- The timestamp step preserves size accounting. -/
theorem processTimestamp_ok (strategy : Strategy)
    (slippageRate commissionRate riskPerTrade leverage : ℚ)
    (maxConcurrentPositions : ℕ) (startingCapital : ℚ)
    (symbolDataList : List (String × List CandleWithIndicators))
    (multiTfBySymbol : List (String × MultiTimeframeData)) (lastTs : ℤ)
    (st : RunState) (ts : ℤ) (hst : stateOk st) :
    stateOk (processTimestamp strategy slippageRate commissionRate riskPerTrade
      leverage maxConcurrentPositions startingCapital symbolDataList
      multiTfBySymbol lastTs st ts) := by
  simp only [processTimestamp]
  have hsym : stateOk (symbolDataList.foldl
      (processSymbol strategy slippageRate commissionRate riskPerTrade leverage
        maxConcurrentPositions multiTfBySymbol ts) st) :=
    foldl_preserves
      (fun st' e _ h => processSymbol_ok strategy slippageRate commissionRate
        riskPerTrade leverage maxConcurrentPositions multiTfBySymbol ts st' e h)
      hst
  split_ifs <;> exact hsym

/-- The final trade list of a USD run: the trades completed during the
main loop plus the forced closes of the positions still open at the
end (step 5 of `runBacktest`). -/
def usdFinalTrades (env : Env) (config : BacktestConfig) : List Trade :=
  let sim := usdSimulate env config
  sim.1.completedTrades ++ sim.1.openPositions.filterMap (fun position =>
    match lookupAssoc sim.2.1 position.symbol with
    | none => none
    | some candles =>
      match candles.getLast? with
      | none => none
      | some lastCandle =>
        some (closePosition position lastCandle.close lastCandle.timestamp
          "End of backtest — forced close" config.slippageRate config.commissionRate))

theorem runBacktest_trades_eq (env : Env) (config : BacktestConfig) (now : ℤ) :
    (runBacktest env config now).trades = usdFinalTrades env config := rfl

/-- The final state of the USD main loop satisfies size accounting. -/
theorem usdSimulate_stateOk (env : Env) (config : BacktestConfig) :
    stateOk (usdSimulate env config).1 := by
  unfold usdSimulate
  refine foldl_preserves
    (fun st ts _ h => processTimestamp_ok _ _ _ _ _ _ _ _ _ _ st ts h) ?_
  exact ⟨fun p hp => absurd hp (List.not_mem_nil p),
    fun t ht => absurd ht (List.not_mem_nil t)⟩

/-- C5: for every trade returned by the USD engine, the remaining size
just before the final close (`remainingSize`, the size the final close
leg trades) is nonnegative, and the sum of the partial-close sizes plus
that final close size equals the original position size. -/
theorem c5_partial_close_size_conservation (env : Env) (config : BacktestConfig)
    (now : ℤ) :
    ∀ t ∈ (runBacktest env config now).trades,
      0 ≤ remainingSize t.pos ∧
      sumPartSizes t.pos + remainingSize t.pos = t.pos.size := by
  intro t ht
  rw [runBacktest_trades_eq] at ht
  have hsim := usdSimulate_stateOk env config
  have hpos : PosOk t.pos := by
    unfold usdFinalTrades at ht
    rcases List.mem_append.mp ht with h | h
    · exact hsim.2 t h
    · rcases List.mem_filterMap.mp h with ⟨p, hp, hpt⟩
      have hpok := hsim.1 p hp
      cases hl : lookupAssoc (usdSimulate env config).2.1 p.symbol with
      | none => rw [hl] at hpt; simp at hpt
      | some candles =>
        rw [hl] at hpt
        dsimp only at hpt
        cases hg : candles.getLast? with
        | none => rw [hg] at hpt; simp at hpt
        | some lastCandle =>
          rw [hg] at hpt
          dsimp only at hpt
          simp only [Option.some_inj] at hpt
          rw [← hpt]
          exact closePosition_ok p lastCandle.close lastCandle.timestamp
            "End of backtest — forced close" config.slippageRate
            config.commissionRate hpok
  unfold PosOk at hpos
  constructor
  · rw [remainingSize_eq]
    linarith
  · rw [remainingSize_eq]
    ring

/-- Closed instance of `c5_partial_close_size_conservation` at the
Scenario A trade (one 50% partial close before the final close). -/
theorem c5_partial_close_size_conservation_witness :
    0 ≤ remainingSize (scenAResult.trades.getLastD default).pos ∧
    sumPartSizes (scenAResult.trades.getLastD default).pos
        + remainingSize (scenAResult.trades.getLastD default).pos
      = (scenAResult.trades.getLastD default).pos.size :=
  c5_partial_close_size_conservation scenAEnv scenAConfig 0
    (scenAResult.trades.getLastD default) (by decide)

-- ============================================================
-- BTC ledger accounting (claim C10)
-- ============================================================

theorem btcClosePosition_pnl (pos : BtcPosition) (exitRatio : ℚ) (exitTime : ℤ)
    (exitReason : String) (leverage commissionRate : ℚ) :
    (btcClosePosition pos exitRatio exitTime exitReason leverage
      commissionRate).btcPnl
      = getCloseBtcReturn pos exitRatio leverage commissionRate
        - pos.btcAllocated := rfl

/-- A full close emitted by the BTC exit cascade returns exactly the
trade's pnl plus the closed allocation. -/
theorem btcCheckExitsOne_fullClose_pnl (strategy : BtcStrategy)
    (commissionRate : ℚ) (altCandles : List AltBtcCandle) (candleIdx : ℕ)
    (currentCandle : AltBtcCandle) (timestamp : ℤ)
    (avgRatioTrend1d avgRatioTrend7d : ℚ) (pos : BtcPosition)
    (t : BtcTrade) (ret : ℚ)
    (h : btcCheckExitsOne strategy commissionRate altCandles candleIdx
      currentCandle timestamp avgRatioTrend1d avgRatioTrend7d pos
      = BtcExitOutcome.fullClose t ret) :
    t.btcPnl = ret - pos.btcAllocated := by
  simp only [btcCheckExitsOne] at h
  split_ifs at h <;>
    first
    | (injection h with h1 h2
       rw [← h1, ← h2, btcClosePosition_pnl])
    | simp at h

/-- A `keep` outcome of the BTC exit cascade returns the position
unchanged. -/
theorem btcCheckExitsOne_keep (strategy : BtcStrategy)
    (commissionRate : ℚ) (altCandles : List AltBtcCandle) (candleIdx : ℕ)
    (currentCandle : AltBtcCandle) (timestamp : ℤ)
    (avgRatioTrend1d avgRatioTrend7d : ℚ) (pos p : BtcPosition)
    (h : btcCheckExitsOne strategy commissionRate altCandles candleIdx
      currentCandle timestamp avgRatioTrend1d avgRatioTrend7d pos
      = BtcExitOutcome.keep p) :
    p = pos := by
  simp only [btcCheckExitsOne] at h
  split_ifs at h <;> first | (injection h with h1; exact h1.symm) | simp at h

/-- The ledger reading of the state parts threaded through the exit
pass: available BTC plus open allocations, net of recorded pnl. -/
def exitAccLedger (acc : List BtcPosition × List BtcTrade × ℚ × List ℚ × List ℚ) : ℚ :=
  acc.2.2.1 + (acc.1.map (fun p => p.btcAllocated)).sum
    - (acc.2.1.map (fun t => t.btcPnl)).sum - acc.2.2.2.1.sum - acc.2.2.2.2.sum

/-- Folding a step that adds `g a` to a ledger reading `L` adds the sum
of `g` over the list. -/
theorem foldl_ledger_additive {α β : Type} (L : β → ℚ) (g : α → ℚ) (f : β → α → β)
    (hstep : ∀ acc a, L (f acc a) = L acc + g a) :
    ∀ (l : List α) (b : β), L (l.foldl f b) = L b + (l.map g).sum := by
  intro l
  induction l with
  | nil => intro b; simp
  | cons a l ih =>
    intro b
    rw [List.foldl_cons, ih, hstep, List.map_cons, List.sum_cons]
    ring

/-- Each step of the BTC exit pass adds exactly the processed position's
allocation to the ledger reading: the accumulator either keeps the
allocation in an open position, or converts it into returned BTC minus
a recorded pnl (a trade's pnl on a full close, a partial-close pnl on a
reduction). -/
theorem btcExitFoldStep_ledger (strategy : BtcStrategy) (commissionRate : ℚ)
    (altCandles : List AltBtcCandle) (candleIdx : ℕ)
    (currentCandle : AltBtcCandle) (timestamp : ℤ) (a1 a7 : ℚ)
    (altSymbol : String)
    (acc : List BtcPosition × List BtcTrade × ℚ × List ℚ × List ℚ)
    (pos : BtcPosition) :
    exitAccLedger (btcExitFoldStep strategy commissionRate altCandles candleIdx
        currentCandle timestamp a1 a7 altSymbol acc pos)
      = exitAccLedger acc + pos.btcAllocated := by
  obtain ⟨o, tr, av, g1, g2⟩ := acc
  simp only [btcExitFoldStep]
  split_ifs with hc
  · cases ho : btcCheckExitsOne strategy commissionRate altCandles candleIdx
        currentCandle timestamp a1 a7 pos with
    | fullClose t ret =>
      have hpnl := btcCheckExitsOne_fullClose_pnl strategy commissionRate altCandles
        candleIdx currentCandle timestamp a1 a7 pos t ret ho
      simp only [btcApplyOutcome, exitAccLedger, List.map_append, List.sum_append,
        List.map_cons, List.map_nil, List.sum_cons, List.sum_nil, hpnl]
      ring
    | reduced p ret isTp1 =>
      simp only [btcApplyOutcome, exitAccLedger]
      split_ifs <;>
      · simp only [List.map_append, List.sum_append, List.map_cons, List.map_nil,
          List.sum_cons, List.sum_nil]
        ring
    | keep p =>
      have hp := btcCheckExitsOne_keep strategy commissionRate altCandles
        candleIdx currentCandle timestamp a1 a7 pos p ho
      subst hp
      simp only [btcApplyOutcome, exitAccLedger, List.map_append, List.sum_append,
        List.map_cons, List.map_nil, List.sum_cons, List.sum_nil]
      ring
  · simp only [exitAccLedger, List.map_append, List.sum_append, List.map_cons,
      List.map_nil, List.sum_cons, List.sum_nil]
    ring

/-- The ledger reading of a full BTC run state: available BTC plus open
allocations, net of every recorded pnl (full-close trades and the two
partial-close families). -/
def btcLedgerOf (st : BtcRunState) : ℚ :=
  st.availableBtc + (st.openPositions.map (fun p => p.btcAllocated)).sum
    - (st.completedTrades.map (fun t => t.btcPnl)).sum
    - st.tp1PartPnls.sum - st.stratPartPnls.sum

/-- The exit pass preserves the ledger reading. -/
theorem btcExitPass_ledger (strategy : BtcStrategy) (commissionRate : ℚ)
    (altCandles : List AltBtcCandle) (candleIdx : ℕ)
    (currentCandle : AltBtcCandle) (timestamp : ℤ) (a1 a7 : ℚ)
    (altSymbol : String) (st : BtcRunState) :
    btcLedgerOf (btcExitPass strategy commissionRate altCandles candleIdx
        currentCandle timestamp a1 a7 altSymbol st)
      = btcLedgerOf st := by
  have h := foldl_ledger_additive exitAccLedger (fun p => p.btcAllocated)
    (btcExitFoldStep strategy commissionRate altCandles candleIdx
      currentCandle timestamp a1 a7 altSymbol)
    (fun acc pos => btcExitFoldStep_ledger strategy commissionRate altCandles
      candleIdx currentCandle timestamp a1 a7 altSymbol acc pos)
    st.openPositions
    (([] : List BtcPosition), st.completedTrades, st.availableBtc,
      st.tp1PartPnls, st.stratPartPnls)
  have h2 : btcLedgerOf (btcExitPass strategy commissionRate altCandles candleIdx
        currentCandle timestamp a1 a7 altSymbol st)
      = exitAccLedger (st.openPositions.foldl
          (btcExitFoldStep strategy commissionRate altCandles candleIdx
            currentCandle timestamp a1 a7 altSymbol)
          (([] : List BtcPosition), st.completedTrades, st.availableBtc,
            st.tp1PartPnls, st.stratPartPnls)) := rfl
  rw [h2, h]
  simp only [exitAccLedger, btcLedgerOf, List.map_nil, List.sum_nil]
  ring

/-- The entry pass preserves the ledger reading: allocating moves BTC
from `availableBtc` into the new position's allocation. -/
theorem btcEntryPass_ledger (strategy : BtcStrategy)
    (allAltCandles : List (String × List AltBtcCandle)) (timestamp : ℤ)
    (a7 : ℚ) (altSymbol : String) (altCandles : List AltBtcCandle)
    (candleIdx : ℕ) (currentCandle : AltBtcCandle) (st : BtcRunState) :
    btcLedgerOf (btcEntryPass strategy allAltCandles timestamp a7 altSymbol
        altCandles candleIdx currentCandle st)
      = btcLedgerOf st := by
  simp only [btcEntryPass]
  split_ifs <;>
    first
    | rfl
    | (simp only [btcLedgerOf, List.map_append, List.sum_append, List.map_cons,
        List.map_nil, List.sum_cons, List.sum_nil]
       ring)

/-- One per-alt loop body preserves the ledger reading of the state
component. -/
theorem btcProcessAlt_ledger (strategy : BtcStrategy) (commissionRate : ℚ)
    (allAltCandles : List (String × List AltBtcCandle)) (timestamp : ℤ)
    (a1 a7 : ℚ) (acc : BtcRunState × ℚ)
    (entry : String × List AltBtcCandle) :
    btcLedgerOf (btcProcessAlt strategy commissionRate allAltCandles timestamp
        a1 a7 acc entry).1
      = btcLedgerOf acc.1 := by
  simp only [btcProcessAlt]
  cases h : btcLastIdxOf entry.2 timestamp with
  | none => rfl
  | some ic =>
    obtain ⟨candleIdx, currentCandle⟩ := ic
    dsimp only
    rw [btcEntryPass_ledger, btcExitPass_ledger]
    rfl

/-- Folding the per-alt loop over any list of alts preserves the ledger
reading. -/
theorem btcAltFold_ledger (strategy : BtcStrategy) (commissionRate : ℚ)
    (allAltCandles : List (String × List AltBtcCandle)) (timestamp : ℤ)
    (a1 a7 : ℚ) (l : List (String × List AltBtcCandle)) :
    ∀ acc : BtcRunState × ℚ,
      btcLedgerOf (l.foldl (btcProcessAlt strategy commissionRate allAltCandles
          timestamp a1 a7) acc).1
        = btcLedgerOf acc.1 := by
  induction l with
  | nil => intro acc; rfl
  | cons e l ih =>
    intro acc
    rw [List.foldl_cons, ih, btcProcessAlt_ledger]

/-- One iteration of the BTC main timestamp loop preserves the ledger
reading (equity recording only appends to the curve). -/
theorem btcProcessTimestamp_ledger (strategy : BtcStrategy)
    (commissionRate : ℚ) (allAltCandles : List (String × List AltBtcCandle))
    (st : BtcRunState) (timestamp : ℤ) :
    btcLedgerOf (btcProcessTimestamp strategy commissionRate allAltCandles
        st timestamp)
      = btcLedgerOf st := by
  simp only [btcProcessTimestamp]
  have h := btcAltFold_ledger strategy commissionRate allAltCandles timestamp
    (calculateAvgRatioTrend allAltCandles timestamp 1)
    (calculateAvgRatioTrend allAltCandles timestamp 7)
    allAltCandles ({ st with candelCounter := st.candelCounter + 1 }, 0)
  split_ifs <;> exact h

/-- The ledger reading of the state parts threaded through the final
force-close pass. -/
def forceAccLedger (acc : List BtcPosition × List BtcTrade × ℚ) : ℚ :=
  acc.2.2 + (acc.1.map (fun p => p.btcAllocated)).sum
    - (acc.2.1.map (fun t => t.btcPnl)).sum

/-- Each step of the force-close pass adds the processed position's
allocation to the ledger reading. -/
theorem btcForceCloseStep_ledger (strategy : BtcStrategy) (commissionRate : ℚ)
    (allAltCandles : List (String × List AltBtcCandle)) (lastTimestamp : ℤ)
    (acc : List BtcPosition × List BtcTrade × ℚ) (pos : BtcPosition) :
    forceAccLedger (btcForceCloseStep strategy commissionRate allAltCandles
        lastTimestamp acc pos)
      = forceAccLedger acc + pos.btcAllocated := by
  obtain ⟨o, tr, av⟩ := acc
  simp only [btcForceCloseStep]
  split_ifs with h1
  · simp only [forceAccLedger, List.map_append, List.sum_append, List.map_cons,
      List.map_nil, List.sum_cons, List.sum_nil]
    ring
  · cases h2 : lookupAssoc allAltCandles pos.altSymbol with
    | none =>
      simp only [forceAccLedger, List.map_append, List.sum_append, List.map_cons,
        List.map_nil, List.sum_cons, List.sum_nil]
      ring
    | some altCandles =>
      cases h3 : altCandles.getLast? with
      | none =>
        simp only [h3, forceAccLedger, List.map_append, List.sum_append,
          List.map_cons, List.map_nil, List.sum_cons, List.sum_nil]
        ring
      | some lastCandle =>
        simp only [h3, forceAccLedger, List.map_append, List.sum_append,
          List.map_cons, List.map_nil, List.sum_cons, List.sum_nil,
          btcClosePosition_pnl]
        ring

/-- The force-close pass preserves the ledger reading. -/
theorem btcForceClose_ledger (strategy : BtcStrategy) (commissionRate : ℚ)
    (allAltCandles : List (String × List AltBtcCandle)) (lastTimestamp : ℤ)
    (st : BtcRunState) :
    btcLedgerOf (btcForceClose strategy commissionRate allAltCandles
        lastTimestamp st)
      = btcLedgerOf st := by
  have h := foldl_ledger_additive forceAccLedger (fun p => p.btcAllocated)
    (btcForceCloseStep strategy commissionRate allAltCandles lastTimestamp)
    (fun acc pos => btcForceCloseStep_ledger strategy commissionRate
      allAltCandles lastTimestamp acc pos)
    st.openPositions
    (([] : List BtcPosition), st.completedTrades, st.availableBtc)
  have h2 : btcLedgerOf (btcForceClose strategy commissionRate allAltCandles
        lastTimestamp st)
      = forceAccLedger (st.openPositions.foldl
          (btcForceCloseStep strategy commissionRate allAltCandles lastTimestamp)
          (([] : List BtcPosition), st.completedTrades, st.availableBtc))
        - st.tp1PartPnls.sum - st.stratPartPnls.sum := rfl
  rw [h2, h]
  simp only [forceAccLedger, btcLedgerOf, List.map_nil, List.sum_nil]
  ring

/-- The main timestamp loop preserves the ledger reading. -/
theorem btcTimelineFold_ledger (strategy : BtcStrategy) (commissionRate : ℚ)
    (allAltCandles : List (String × List AltBtcCandle)) (l : List ℤ) :
    ∀ st : BtcRunState,
      btcLedgerOf (l.foldl (btcProcessTimestamp strategy commissionRate
          allAltCandles) st)
        = btcLedgerOf st := by
  induction l with
  | nil => intro st; rfl
  | cons t l ih =>
    intro st
    rw [List.foldl_cons, ih, btcProcessTimestamp_ledger]

/-- C10: BTC-variant partial-close accounting.  A TP1 partial close (and
likewise a strategy-exit partial close) credits the returned BTC to
`availableBtc` without emitting a Trade; the engine's books balance only
once the per-partial pnls (recorded here in the instrumentation fields
`tp1PartPnls`/`stratPartPnls`, which the engine itself never reads) are
added back: after any run, available BTC plus the allocations still held
in open positions equals the starting BTC plus the summed trade pnls
plus the summed TP1 and strategy-exit partial-close pnls.  Moreover on
any non-degenerate input the reported `finalBtc` is exactly that
`availableBtc`, so `finalBtc - startingBtc` differs from the summed
trade pnls by precisely the total partial-close pnl — which need not be
nonzero just because one profitable TP1 partial occurred. -/
theorem c10_btc_partial_close_ledger
    (allAltCandles : List (String × List AltBtcCandle))
    (strategy : BtcStrategy) :
    (btcFinalState allAltCandles strategy).availableBtc
        + ((btcFinalState allAltCandles strategy).openPositions.map
            (fun p => p.btcAllocated)).sum
      = STARTING_BTC
        + ((btcFinalState allAltCandles strategy).completedTrades.map
            (fun t => t.btcPnl)).sum
        + (btcFinalState allAltCandles strategy).tp1PartPnls.sum
        + (btcFinalState allAltCandles strategy).stratPartPnls.sum
    ∧ (allAltCandles ≠ [] → buildBtcTimeline allAltCandles ≠ [] →
        (runBtcBacktest allAltCandles strategy).finalBtc
          = (btcFinalState allAltCandles strategy).availableBtc) := by
  constructor
  · have h : btcLedgerOf (btcFinalState allAltCandles strategy) = STARTING_BTC := by
      simp only [btcFinalState]
      rw [btcForceClose_ledger, btcTimelineFold_ledger]
      simp [btcLedgerOf]
    simp only [btcLedgerOf] at h
    linarith
  · intro h1 h2
    simp only [runBtcBacktest]
    rw [if_neg h1, if_neg h2]
    rfl

/-- Closed instance of `c10_btc_partial_close_ledger` on the two-alt run
in which a profitable TP1 partial close occurs. -/
theorem c10_btc_partial_close_ledger_witness :
    (btcFinalState scenC10Data scenC10Strategy).availableBtc
        + ((btcFinalState scenC10Data scenC10Strategy).openPositions.map
            (fun p => p.btcAllocated)).sum
      = STARTING_BTC
        + ((btcFinalState scenC10Data scenC10Strategy).completedTrades.map
            (fun t => t.btcPnl)).sum
        + (btcFinalState scenC10Data scenC10Strategy).tp1PartPnls.sum
        + (btcFinalState scenC10Data scenC10Strategy).stratPartPnls.sum
    ∧ (runBtcBacktest scenC10Data scenC10Strategy).finalBtc
        = (btcFinalState scenC10Data scenC10Strategy).availableBtc :=
  ⟨(c10_btc_partial_close_ledger scenC10Data scenC10Strategy).1,
   (c10_btc_partial_close_ledger scenC10Data scenC10Strategy).2
     (by decide) (by decide)⟩

-- ============================================================
-- Daily-grouping agreement (claim C6)
-- ============================================================

theorem mem_insertTs (t a : ℤ) : ∀ l : List ℤ, a ∈ insertTs t l ↔ a = t ∨ a ∈ l := by
  intro l
  induction l with
  | nil => simp [insertTs]
  | cons x xs ih =>
    simp only [insertTs]
    split_ifs with h1 h2
    · simp [List.mem_cons]
    · subst h2
      simp only [List.mem_cons]
      tauto
    · simp only [List.mem_cons, ih]
      tauto

theorem insertTs_pairwise (t : ℤ) :
    ∀ l : List ℤ, l.Pairwise (· < ·) → (insertTs t l).Pairwise (· < ·) := by
  intro l
  induction l with
  | nil => intro _; simp [insertTs]
  | cons x xs ih =>
    intro h
    rw [List.pairwise_cons] at h
    obtain ⟨hx, hxs⟩ := h
    simp only [insertTs]
    split_ifs with h1 h2
    · refine List.pairwise_cons.mpr ⟨?_, List.pairwise_cons.mpr ⟨hx, hxs⟩⟩
      intro b hb
      rcases List.mem_cons.mp hb with rfl | hb
      · exact h1
      · exact lt_trans h1 (hx b hb)
    · exact List.pairwise_cons.mpr ⟨hx, hxs⟩
    · refine List.pairwise_cons.mpr ⟨?_, ih hxs⟩
      intro b hb
      rcases (mem_insertTs t b xs).mp hb with rfl | hb
      · exact lt_of_le_of_ne (le_of_not_lt h1) (fun hxe => h2 hxe.symm)
      · exact hx b hb

theorem sortInts_pairwise (l : List ℤ) : (sortInts l).Pairwise (· < ·) := by
  have key : ∀ (l acc : List ℤ), acc.Pairwise (· < ·) →
      (l.foldl (fun acc t => insertTs t acc) acc).Pairwise (· < ·) := by
    intro l
    induction l with
    | nil => intro acc h; exact h
    | cons x xs ih =>
      intro acc h
      rw [List.foldl_cons]
      exact ih _ (insertTs_pairwise x acc h)
  exact key l [] List.Pairwise.nil

theorem mem_sortInts (a : ℤ) (l : List ℤ) : a ∈ sortInts l ↔ a ∈ l := by
  have key : ∀ (l acc : List ℤ),
      a ∈ l.foldl (fun acc t => insertTs t acc) acc ↔ a ∈ acc ∨ a ∈ l := by
    intro l
    induction l with
    | nil => intro acc; simp
    | cons x xs ih =>
      intro acc
      rw [List.foldl_cons, ih, mem_insertTs]
      simp only [List.mem_cons]
      tauto
  rw [sortInts, key l []]
  simp

theorem sorted_lt_eq_of_mem (l₁ : List ℤ) :
    ∀ l₂ : List ℤ, l₁.Pairwise (· < ·) → l₂.Pairwise (· < ·) →
      (∀ a, a ∈ l₁ ↔ a ∈ l₂) → l₁ = l₂ := by
  induction l₁ with
  | nil =>
    intro l₂ _ _ hm
    cases l₂ with
    | nil => rfl
    | cons y t₂ => exact absurd ((hm y).mpr (List.mem_cons_self y t₂)) (List.not_mem_nil y)
  | cons x t₁ ih =>
    intro l₂ h₁ h₂ hm
    cases l₂ with
    | nil => exact absurd ((hm x).mp (List.mem_cons_self x t₁)) (List.not_mem_nil x)
    | cons y t₂ =>
      rw [List.pairwise_cons] at h₁ h₂
      have hxy : x = y := by
        rcases List.mem_cons.mp ((hm x).mp (List.mem_cons_self x t₁)) with h | h
        · exact h
        · rcases List.mem_cons.mp ((hm y).mpr (List.mem_cons_self y t₂)) with h' | h'
          · exact h'.symm
          · exact absurd (lt_trans (h₂.1 x h) (h₁.1 y h')) (lt_irrefl y)
      subst hxy
      have ht : ∀ a, a ∈ t₁ ↔ a ∈ t₂ := by
        intro a
        constructor
        · intro ha
          rcases List.mem_cons.mp ((hm a).mp (List.mem_cons_of_mem x ha)) with h | h
          · exact absurd (h ▸ h₁.1 a ha) (lt_irrefl x)
          · exact h
        · intro ha
          rcases List.mem_cons.mp ((hm a).mpr (List.mem_cons_of_mem x ha)) with h | h
          · exact absurd (h ▸ h₂.1 a ha) (lt_irrefl x)
          · exact h
      rw [ih t₂ h₁.2 h₂.2 ht]

theorem sortInts_congr (l₁ l₂ : List ℤ) (h : ∀ a, a ∈ l₁ ↔ a ∈ l₂) :
    sortInts l₁ = sortInts l₂ :=
  sorted_lt_eq_of_mem _ _ (sortInts_pairwise l₁) (sortInts_pairwise l₂)
    (fun a => by rw [mem_sortInts, mem_sortInts]; exact h a)

theorem lookupAssoc_append {κ β : Type} [DecidableEq κ]
    (m m' : List (κ × β)) (k : κ) :
    lookupAssoc (m ++ m') k
      = match lookupAssoc m k with
        | some v => some v
        | none => lookupAssoc m' k := by
  induction m with
  | nil => simp [lookupAssoc]
  | cons e m ih =>
    simp only [List.cons_append, lookupAssoc]
    split_ifs with h
    · rfl
    · exact ih

theorem lookupAssoc_map_update (m : List (ℤ × ℚ × ℚ)) (key : ℤ) (c : ℚ) (k : ℤ) :
    lookupAssoc (m.map (fun e => if e.1 = key then (e.1, e.2.1, c) else e)) k
      = if k = key then Option.map (fun v => (v.1, c)) (lookupAssoc m k)
        else lookupAssoc m k := by
  induction m with
  | nil => by_cases hk : k = key <;> simp [lookupAssoc, hk]
  | cons e m ih =>
    by_cases he : e.1 = key
    · by_cases hk : e.1 = k
      · have hkk : k = key := by rw [← hk, he]
        simp [lookupAssoc, he, hk, hkk]
      · have hkk : k ≠ key := fun h => hk (he.trans h.symm)
        have hkey : key ≠ k := fun h => hk (he.trans h)
        simp [lookupAssoc, he, hk, hkk, hkey, ih]
    · by_cases hk : e.1 = k
      · have hkk : k ≠ key := fun h => he (hk.trans h)
        simp [lookupAssoc, he, hk, hkk]
      · simp [lookupAssoc, he, hk, ih]

theorem lookupAssoc_isSome_iff {κ β : Type} [DecidableEq κ]
    (m : List (κ × β)) (k : κ) :
    (lookupAssoc m k).isSome = true ↔ k ∈ m.map Prod.fst := by
  induction m with
  | nil => simp [lookupAssoc]
  | cons e m ih =>
    simp only [lookupAssoc, List.map_cons, List.mem_cons]
    split_ifs with h
    · simp [h.symm]
    · simp [ih, Ne.symm h]

/-- The equities of a day's samples, in curve order. -/
def dayEqs (l : List EquityPoint) (k : ℤ) : List ℚ :=
  (l.filter (fun p => dayKeyOf p.timestamp = k)).map (fun p => p.equity)

/-- Characterisation of the per-day grouping fold: the stored `last`
value for a day key is the equity of the day's last sample in curve
order. -/
theorem lookup_dailyFold (l : List EquityPoint) :
    ∀ (m : List (ℤ × ℚ × ℚ)) (k : ℤ),
      lookupAssoc (l.foldl dailyUpdate m) k
        = match lookupAssoc m k with
          | some v => some (v.1, (dayEqs l k).getLastD v.2)
          | none =>
            match dayEqs l k with
            | [] => none
            | e :: es => some (e, es.getLastD e) := by
  induction l with
  | nil =>
    intro m k
    cases h : lookupAssoc m k <;> simp [dayEqs, h]
  | cons p l ih =>
    intro m k
    rw [List.foldl_cons, ih]
    by_cases hd : dayKeyOf p.timestamp = k
    · subst hd
      have hde : dayEqs (p :: l) (dayKeyOf p.timestamp)
          = p.equity :: dayEqs l (dayKeyOf p.timestamp) := by
        simp [dayEqs]
      cases hm : lookupAssoc m (dayKeyOf p.timestamp) with
      | some v =>
        have hu : lookupAssoc (dailyUpdate m p) (dayKeyOf p.timestamp)
            = some (v.1, p.equity) := by
          simp only [dailyUpdate]
          rw [if_pos (by rw [hm]; rfl)]
          rw [lookupAssoc_map_update, if_pos rfl, hm]
          rfl
        rw [hu, hde]
        dsimp only
        rw [List.getLastD_cons]
      | none =>
        have hu : lookupAssoc (dailyUpdate m p) (dayKeyOf p.timestamp)
            = some (p.equity, p.equity) := by
          simp only [dailyUpdate]
          rw [if_neg (by rw [hm]; simp)]
          rw [lookupAssoc_append, hm]
          simp [lookupAssoc]
        rw [hu, hde]
    · have hde : dayEqs (p :: l) k = dayEqs l k := by
        simp [dayEqs, hd]
      have hu : lookupAssoc (dailyUpdate m p) k = lookupAssoc m k := by
        simp only [dailyUpdate]
        split_ifs with hs
        · rw [lookupAssoc_map_update, if_neg (fun h => hd h.symm)]
        · rw [lookupAssoc_append]
          cases hm : lookupAssoc m k with
          | some v => rfl
          | none => simp [lookupAssoc, hd]
      rw [hu, hde]

/-- Under nondecreasing timestamps, the running "latest sample" fold
returns the last element. -/
theorem foldl_latest_eq_getLastD (rest : List EquityPoint) :
    ∀ h : EquityPoint,
      (h :: rest).Pairwise (fun p q => p.timestamp ≤ q.timestamp) →
      rest.foldl (fun acc p => if acc.timestamp ≤ p.timestamp then p else acc) h
        = rest.getLastD h := by
  induction rest with
  | nil => intro h _; rfl
  | cons p rest ih =>
    intro h hs
    rw [List.pairwise_cons] at hs
    rw [List.foldl_cons, if_pos (hs.1 p (List.mem_cons_self p rest)),
      List.getLastD_cons]
    exact ih p hs.2

/-- Under nondecreasing timestamps, `lastSampleOfDay` is the last
filtered sample of the day in curve order. -/
theorem lastSampleOfDay_eq (curve : List EquityPoint) (d : ℤ)
    (hs : curve.Pairwise (fun p q => p.timestamp ≤ q.timestamp)) :
    lastSampleOfDay curve d
      = match curve.filter (fun p => dayKeyOf p.timestamp = d) with
        | [] => none
        | h :: rest => some (rest.getLastD h) := by
  simp only [lastSampleOfDay]
  cases hf : curve.filter (fun p => dayKeyOf p.timestamp = d) with
  | nil => simp [hf]
  | cons h rest =>
    have hp : (h :: rest).Pairwise (fun p q => p.timestamp ≤ q.timestamp) := by
      rw [← hf]
      exact hs.filter _
    simp only [hf]
    rw [foldl_latest_eq_getLastD rest h hp]

theorem getLastD_map {α β : Type} (f : α → β) (l : List α) :
    ∀ d : α, (l.map f).getLastD (f d) = f (l.getLastD d) := by
  induction l with
  | nil => intro d; rfl
  | cons a l ih =>
    intro d
    rw [List.map_cons, List.getLastD_cons, List.getLastD_cons]
    exact ih a

/-- The grouped `last` equity of a day agrees with the last equity
sample of that day, for timestamp-sorted curves. -/
theorem lastVal_eq (curve : List EquityPoint)
    (hs : curve.Pairwise (fun p q => p.timestamp ≤ q.timestamp)) (k : ℤ) :
    Option.map (fun v => v.2) (lookupAssoc (curve.foldl dailyUpdate []) k)
      = Option.map (fun p => p.equity) (lastSampleOfDay curve k) := by
  rw [lookup_dailyFold curve [] k, lastSampleOfDay_eq curve k hs]
  cases hf : curve.filter (fun p => dayKeyOf p.timestamp = k) with
  | nil =>
    have hde : dayEqs curve k = [] := by simp [dayEqs, hf]
    simp [lookupAssoc, hde]
  | cons h rest =>
    have hde : dayEqs curve k = h.equity :: rest.map (fun p => p.equity) := by
      simp [dayEqs, hf]
    simp only [lookupAssoc, hde]
    exact congrArg some (getLastD_map (fun p => p.equity) rest h)

/-- The day keys collected by the grouping fold are exactly the day
keys occurring in the curve. -/
theorem dailyKeys_eq (curve : List EquityPoint) :
    sortInts ((curve.foldl dailyUpdate []).map Prod.fst)
      = sortInts (curve.map (fun p => dayKeyOf p.timestamp)) := by
  apply sortInts_congr
  intro k
  rw [← lookupAssoc_isSome_iff, lookup_dailyFold curve [] k]
  have hiff : dayEqs curve k ≠ []
      ↔ k ∈ curve.map (fun p => dayKeyOf p.timestamp) := by
    constructor
    · intro hne
      rcases List.exists_mem_of_ne_nil _ hne with ⟨e, he⟩
      rcases List.mem_map.mp he with ⟨p, hp, rfl⟩
      have hpf := List.mem_filter.mp hp
      exact List.mem_map.mpr ⟨p, hpf.1, by simpa using hpf.2⟩
    · intro hk
      rcases List.mem_map.mp hk with ⟨p, hp, rfl⟩
      have hmem : p.equity ∈ dayEqs curve (dayKeyOf p.timestamp) :=
        List.mem_map.mpr ⟨p, List.mem_filter.mpr ⟨hp, by simp⟩, rfl⟩
      intro hnil
      rw [hnil] at hmem
      exact List.not_mem_nil _ hmem
  rw [← hiff]
  cases hf : dayEqs curve k <;> simp [lookupAssoc, hf]

/-- For timestamp-sorted curves the engine's daily-return extraction
agrees with the spec's "last equity sample of each calendar day"
description. -/
theorem dailyReturns_eq_spec (curve : List EquityPoint)
    (hs : curve.Pairwise (fun p q => p.timestamp ≤ q.timestamp)) :
    dailyReturnsOf curve = specDailyReturns curve := by
  simp only [dailyReturnsOf, specDailyReturns]
  rw [dailyKeys_eq curve]
  apply List.filterMap_congr
  intro kk hkk
  have h1 := lastVal_eq curve hs kk.1
  have h2 := lastVal_eq curve hs kk.2
  cases ha : lookupAssoc (curve.foldl dailyUpdate []) kk.1 with
  | none =>
    cases hb : lastSampleOfDay curve kk.1 with
    | none => simp [ha, hb]
    | some p => rw [ha, hb] at h1; simp at h1
  | some v =>
    cases hb : lastSampleOfDay curve kk.1 with
    | none => rw [ha, hb] at h1; simp at h1
    | some p =>
      rw [ha, hb] at h1
      simp only [Option.map_some', Option.some.injEq] at h1
      cases hc : lookupAssoc (curve.foldl dailyUpdate []) kk.2 with
      | none =>
        cases hd : lastSampleOfDay curve kk.2 with
        | none => simp [ha, hb, hc, hd]
        | some q => rw [hc, hd] at h2; simp at h2
      | some w =>
        cases hd : lastSampleOfDay curve kk.2 with
        | none => rw [hc, hd] at h2; simp at h2
        | some q =>
          rw [hc, hd] at h2
          simp only [Option.map_some', Option.some.injEq] at h2
          simp [ha, hb, hc, hd, h1, h2]

theorem foldl_add_sum (l : List ℚ) :
    ∀ s : ℚ, l.foldl (fun s r => s + r) s = s + l.sum := by
  induction l with
  | nil => intro s; simp
  | cons x xs ih =>
    intro s
    rw [List.foldl_cons, ih, List.sum_cons]
    ring

theorem foldl_sq_sum (μ : ℚ) (l : List ℚ) :
    ∀ s : ℚ, l.foldl (fun s r => s + (r - μ) ^ 2) s
      = s + (l.map (fun x => (x - μ) ^ 2)).sum := by
  induction l with
  | nil => intro s; simp
  | cons x xs ih =>
    intro s
    rw [List.foldl_cons, ih, List.map_cons, List.sum_cons]
    ring

theorem sqrt_gate_eq (sqrt : ℚ → ℚ)
    (hsqrt : ∀ x : ℚ, 0 ≤ x → (0 < sqrt x ↔ 0 < x)) (M V : ℚ) (hV0 : 0 ≤ V) :
    (if sqrt V > 0 then M / sqrt V * sqrt 365 else 0)
      = if V = 0 then 0 else M / sqrt V * sqrt 365 := by
  by_cases hV : V = 0
  · have hns : ¬ (sqrt V > 0) := fun h => by
      have h0 := (hsqrt V hV0).mp h
      rw [hV] at h0
      exact lt_irrefl 0 h0
    rw [if_neg hns, if_pos hV]
  · rw [if_neg hV, if_pos ((hsqrt V hV0).mpr (lt_of_le_of_ne hV0 (Ne.symm hV)))]

/-- C6: for every timestamp-sorted equity curve, and any square-root
function that is positive exactly on the positives (as `Math.sqrt` is),
the engine's annualised Sharpe ratio equals the spec's formula —
`mean(dailyReturns) / stdev(dailyReturns) × √365` over one return per
calendar day taken from the day's last equity sample, with Bessel's
correction, and 0 when fewer than 2 valid daily returns exist or the
variance is zero. -/
theorem c6_sharpe_ratio_matches_spec (sqrt : ℚ → ℚ)
    (hsqrt : ∀ x : ℚ, 0 ≤ x → (0 < sqrt x ↔ 0 < x))
    (curve : List EquityPoint)
    (hs : curve.Pairwise (fun p q => p.timestamp ≤ q.timestamp)) :
    sharpeRatioOf sqrt curve = specSharpe sqrt curve := by
  simp only [sharpeRatioOf, specSharpe]
  rw [dailyReturns_eq_spec curve hs]
  by_cases hc : curve.length > 1
  · rw [if_pos hc]
    by_cases hlen : (specDailyReturns curve).length > 1
    · rw [if_pos hlen, if_neg (by omega : ¬ (specDailyReturns curve).length < 2)]
      simp only [foldl_add_sum, foldl_sq_sum, zero_add]
      refine sqrt_gate_eq sqrt hsqrt _ _ ?_
      apply div_nonneg
      · apply List.sum_nonneg
        intro x hx
        rcases List.mem_map.mp hx with ⟨y, _, rfl⟩
        exact sq_nonneg _
      · have h2 : (1 : ℚ) < ((specDailyReturns curve).length : ℚ) := by
          exact_mod_cast hlen
        linarith
    · rw [if_neg hlen, if_pos (by omega : (specDailyReturns curve).length < 2)]
  · rw [if_neg hc]
    have hnil : specDailyReturns curve = [] := by
      cases curve with
      | nil => rfl
      | cons a t =>
        cases t with
        | nil => rfl
        | cons b t' =>
          exact absurd (by simp only [List.length_cons]; omega) hc
    rw [hnil]
    simp

/-- A concrete sorted three-day equity curve. -/
def c6wCurve : List EquityPoint :=
  [ { timestamp := 0, equity := 500 },
    { timestamp := 43200000, equity := 510 },
    { timestamp := 86400000, equity := 520 },
    { timestamp := 172800000, equity := 530 } ]

/-- The identity square root used to instantiate the Sharpe theorem (it
is positive exactly on the positives). -/
def c6wSqrt : ℚ → ℚ := fun x => x

/-- Closed instance of `c6_sharpe_ratio_matches_spec` on a concrete
three-day curve. -/
theorem c6_sharpe_ratio_matches_spec_witness :
    (∀ x : ℚ, 0 ≤ x → (0 < c6wSqrt x ↔ 0 < x))
    ∧ c6wCurve.Pairwise (fun p q => p.timestamp ≤ q.timestamp)
    ∧ sharpeRatioOf c6wSqrt c6wCurve = specSharpe c6wSqrt c6wCurve :=
  ⟨fun x hx => Iff.rfl, by decide,
   c6_sharpe_ratio_matches_spec c6wSqrt (fun x hx => Iff.rfl) c6wCurve (by decide)⟩
